import Mathlib

/-!
Verification of the johnnydecimal core: the identifier value object
(`src/jdnumber/mod.rs`), the indexed system model and its grammar
(`src/system/mod.rs`).  Rust strings are modelled as Lean strings,
`PathBuf` as the list of its components (a real path component never
contains the separator `/`), `u32` fields as `Nat`, and fallible Rust
functions as `Except`/`Option` values.  A Rust panic is modelled by a
dedicated result constructor where a claim depends on it.
-/

namespace JD

/-- Value of an ASCII digit character. -/
def dval (c : Char) : Nat := c.toNat - 48

/-- Value of two ASCII digit characters. -/
def val2 (a b : Char) : Nat := 10 * dval a + dval b

/-- Value of three ASCII digit characters. -/
def val3 (a b c : Char) : Nat := 100 * dval a + 10 * dval b + dval c

/-- Rust format specifier `{:0>2}`: decimal representation left-padded
with zeros to width two. -/
def pad2 (n : Nat) : String := ⟨List.replicate (2 - (Nat.repr n).length) '0' ++ (Nat.repr n).data⟩

/-- Rust format specifier `{:0>3}`: decimal representation left-padded
with zeros to width three. -/
def pad3 (n : Nat) : String := ⟨List.replicate (3 - (Nat.repr n).length) '0' ++ (Nat.repr n).data⟩

/-- Model of `enum Location { Path(PathBuf) }`: a location of a Johnny
Decimal number; the path is kept as its list of components. -/
inductive Location where
  | path (p : List String)
deriving DecidableEq, Repr

/-- Model of `struct JdNumber`.  The `project_area_label` field appears in
the nine-argument `JdNumber::new` calls of `src/system/mod.rs` (it is the
label of the enclosing project-area line); no ordering, equality or
rendering function consults it. -/
structure JdNumber where
  project : Option Nat
  project_label : Option String
  project_area_label : Option String
  category : Nat
  id : Nat
  label : String
  area_label : String
  category_label : String
  path : Location
deriving DecidableEq, Repr

namespace JdNumber

/-- Model of `JdNumber::new`: range checking constructor.  Fails when
`category > 99`, `id > 99` or a present `project > 999`. -/
def new (area_label category_label : String) (category id : Nat)
    (project : Option Nat) (project_label project_area_label : Option String)
    (label : String) (path : List String) : Except Unit JdNumber :=
  if category > 99 ∨ id > 99 then .error ()
  else
    match project with
    | some p =>
        if p > 999 then .error ()
        else .ok ⟨some p, project_label, project_area_label, category, id, label,
                  area_label, category_label, .path path⟩
    | none => .ok ⟨none, project_label, project_area_label, category, id, label,
                   area_label, category_label, .path path⟩

end JdNumber

/-- Model of `impl Ord for JdNumber::cmp`: compares projects first (a
present project is greater than an absent one), then categories, then
ids, by chained greater/less tests. -/
def jdCmp (a b : JdNumber) : Ordering :=
  match a.project, b.project with
  | some p, some q =>
      if p > q then .gt
      else if p < q then .lt
      else if a.category > b.category then .gt
      else if a.category < b.category then .lt
      else if a.id > b.id then .gt
      else if a.id < b.id then .lt
      else .eq
  | some _, none => .gt
  | none, some _ => .lt
  | none, none =>
      if a.category > b.category then .gt
      else if a.category < b.category then .lt
      else if a.id > b.id then .gt
      else if a.id < b.id then .lt
      else .eq

/-- Model of `impl PartialEq for JdNumber`: structural equality on
exactly the project, category and id fields. -/
def jdBEq (a b : JdNumber) : Bool :=
  a.project == b.project && a.category == b.category && a.id == b.id

/-- Comparison of optional projects as the specification words it: an
absent project sorts less than any present project, two present projects
compare as numbers. -/
def specProjCompare : Option Nat → Option Nat → Ordering
  | none, none => .eq
  | none, some _ => .lt
  | some _, none => .gt
  | some p, some q => compare p q

/-- The §4.1 order as the specification words it: lexicographic on
(project, category, id) using `specProjCompare` on projects. -/
def specCompare (a b : JdNumber) : Ordering :=
  (specProjCompare a.project b.project).then
    ((compare a.category b.category).then (compare a.id b.id))

/-- Rank of an optional project for order reasoning: an absent project
ranks below every present one. -/
def pk : Option Nat → Nat
  | none => 0
  | some p => p + 1

/-- The strict order underlying `jdCmp`, spelled out on the ranks. -/
def keyLt (a b : JdNumber) : Prop :=
  pk a.project < pk b.project
  ∨ (pk a.project = pk b.project
      ∧ (a.category < b.category ∨ (a.category = b.category ∧ a.id < b.id)))

/-- Model of the Rust standard library binary-search loop used by
`Vec::binary_search` (`left`/`right` bisection, comparing the element at
the midpoint with the target); the structural `fuel` argument bounds the
iteration count and never runs out when called with `length + 1`. -/
def bsLoop (xs : List JdNumber) (t : JdNumber) : Nat → Nat → Nat → Except Nat Nat
  | 0, left, _ => .error left
  | fuel + 1, left, right =>
    if left < right then
      let mid := left + (right - left) / 2
      match jdCmp (xs.getD mid t) t with
      | .lt => bsLoop xs t fuel (mid + 1) right
      | .gt => bsLoop xs t fuel left mid
      | .eq => .ok mid
    else .error left

/-- Model of `self.id.binary_search(&id)`: `Except.ok` carries the index
of an element comparing equal, `Except.error` the insertion point. -/
def binary_search (xs : List JdNumber) (t : JdNumber) : Except Nat Nat :=
  bsLoop xs t (xs.length + 1) 0 xs.length

/-- Model of `System::add_id` restricted to the identifier sequence:
insert at the binary-search insertion point, or report a duplicate. -/
def add_id (l : List JdNumber) (x : JdNumber) : Except String (List JdNumber) :=
  match binary_search l x with
  | .ok _ => .error "Element already exists."
  | .error pos => .ok (l.take pos ++ x :: l.drop pos)

/-- The effect of one `add_id` call on the stored sequence: on a
duplicate error the sequence is unchanged. -/
def applyAdd (l : List JdNumber) (x : JdNumber) : List JdNumber :=
  match add_id l x with
  | .ok l2 => l2
  | .error _ => l

/-- Sequences reachable from the empty index by `add_id` operations. -/
inductive Reachable : List JdNumber → Prop
  | nil : Reachable []
  | step (l x) : Reachable l → Reachable (applyAdd l x)

/-- Strictly increasing in the §4.1 order across adjacent elements. -/
def sortedLt (xs : List JdNumber) : Prop :=
  List.Chain' (fun a b => jdCmp a b = .lt) xs

/-- Sample identifier 12.01 used by concrete witnesses. -/
def jdA : JdNumber :=
  ⟨none, none, none, 12, 1, "_sept_payroll", "_finance", "_payroll", .path []⟩

/-- Sample identifier 22.02 used by concrete witnesses. -/
def jdB : JdNumber :=
  ⟨none, none, none, 22, 2, "_office_lease", "_admin", "_contracts", .path []⟩

/-- Model of the regex class `\d` on one character. -/
def isDig (c : Char) : Bool := c.isDigit

/-- Captures of the anchored regex `(\d\d\d)?\.?(\d\d)\.(\d\d)` shared by
`impl TryFrom<String> for JdNumber` and the `jd_ex` regex of
`System::parse_jd_input`.  The project group and the following dot are
independently optional, so backtracking accepts exactly four shapes,
distinguished by their lengths: `DD.DD`, `.DD.DD`, `DDDDD.DD` and
`DDD.DD.DD`. -/
def jdDigitsCaptures : List Char → Option (Option Nat × Nat × Nat)
  | [a, b, c, d, e] =>
      if isDig a && isDig b && (c == '.') && isDig d && isDig e then
        some (none, val2 a b, val2 d e)
      else none
  | [a, b, c, d, e, f] =>
      if (a == '.') && isDig b && isDig c && (d == '.') && isDig e && isDig f then
        some (none, val2 b c, val2 e f)
      else none
  | [a, b, c, d, e, f, g, h] =>
      if isDig a && isDig b && isDig c && isDig d && isDig e && (f == '.')
          && isDig g && isDig h then
        some (some (val3 a b c), val2 d e, val2 g h)
      else none
  | [a, b, c, d, e, f, g, h, i] =>
      if isDig a && isDig b && isDig c && (d == '.') && isDig e && isDig f && (g == '.')
          && isDig h && isDig i then
        some (some (val3 a b c), val2 e f, val2 h i)
      else none
  | _ => none

/-- Model of `impl TryFrom<String> for JdNumber`: apply the regex, then
build the identifier with empty area and category labels, no project
label, and the constant item label "label". -/
def tryFromString (value : String) : Except String JdNumber :=
  match jdDigitsCaptures value.data with
  | some (project, category, id) =>
      match JdNumber.new "" "" category id project none none "label" [] with
      | .ok jd => .ok jd
      | .error _ => .error "Could not create JD"
  | none => .error "Regex did not match"

/-- Captures of the anchored regex `(\d\d\d)?\.?(\d\d)` (the `cat_ex`
regex of `System::parse_jd_input`).  Backtracking accepts exactly the
shapes `DD`, `.DD`, `DDDDD` and `DDD.DD`. -/
def catExCaptures : List Char → Option (Option Nat × Nat)
  | [a, b] =>
      if isDig a && isDig b then some (none, val2 a b) else none
  | [a, b, c] =>
      if (a == '.') && isDig b && isDig c then some (none, val2 b c) else none
  | [a, b, c, d, e] =>
      if isDig a && isDig b && isDig c && isDig d && isDig e then
        some (some (val3 a b c), val2 d e)
      else none
  | [a, b, c, d, e, f] =>
      if isDig a && isDig b && isDig c && (d == '.') && isDig e && isDig f then
        some (some (val3 a b c), val2 e f)
      else none
  | _ => none

/-- Captures of the anchored regex `(\d\d\d)` (the `project_ex` regex of
`System::parse_jd_input`): exactly three digits. -/
def projExCaptures : List Char → Option Nat
  | [a, b, c] =>
      if isDig a && isDig b && isDig c then some (val3 a b c) else none
  | _ => none

/-- Model of `System::parse_jd_input`: the three regexes are applied in
sequence and each match overwrites the fields it captures; the id is
only ever set by the full `jd_ex` regex.  The function never fails. -/
def parse_jd_input (input : String) : Option Nat × Option Nat × Option Nat :=
  let l := input.data
  let s1 : Option Nat × Option Nat :=
    match catExCaptures l with
    | some (p, c) => (p, some c)
    | none => (none, none)
  let p2 : Option Nat :=
    match projExCaptures l with
    | some p => some p
    | none => s1.1
  match jdDigitsCaptures l with
  | some (p, c, i) => (p, some c, some i)
  | none => (p2, s1.2, none)

/-- The shapes named by claim C5: exactly `CC.II` and `PPP.CC.II`
(digits only, exact widths 2-2 and 3-2-2 separated by literal dots). -/
def c5ClaimShape (l : List Char) : Bool :=
  match l with
  | [a, b, c, d, e] => isDig a && isDig b && (c == '.') && isDig d && isDig e
  | [a, b, c, d, e, f, g, h, i] =>
      isDig a && isDig b && isDig c && (d == '.') && isDig e && isDig f && (g == '.')
        && isDig h && isDig i
  | _ => false

/-- The amended C5 parser, written from the amended claim words: an
optional three-digit project group, then an independently optional
literal dot, then a two-digit category, a dot and a two-digit id; on
success project, category and id come from the digit groups, the area
and category labels are empty, the project label is absent and the item
label is the constant string "label"; every other input is rejected. -/
def c5SpecParse (s : String) : Except String JdNumber :=
  match s.data with
  | [a, b, c, d, e] =>
      if isDig a && isDig b && (c == '.') && isDig d && isDig e then
        .ok ⟨none, none, none, val2 a b, val2 d e, "label", "", "", .path []⟩
      else .error "Regex did not match"
  | [a, b, c, d, e, f] =>
      if (a == '.') && isDig b && isDig c && (d == '.') && isDig e && isDig f then
        .ok ⟨none, none, none, val2 b c, val2 e f, "label", "", "", .path []⟩
      else .error "Regex did not match"
  | [a, b, c, d, e, f, g, h] =>
      if isDig a && isDig b && isDig c && isDig d && isDig e && (f == '.')
          && isDig g && isDig h then
        .ok ⟨some (val3 a b c), none, none, val2 d e, val2 g h, "label", "", "", .path []⟩
      else .error "Regex did not match"
  | [a, b, c, d, e, f, g, h, i] =>
      if isDig a && isDig b && isDig c && (d == '.') && isDig e && isDig f && (g == '.')
          && isDig h && isDig i then
        .ok ⟨some (val3 a b c), none, none, val2 e f, val2 h i, "label", "", "", .path []⟩
      else .error "Regex did not match"
  | _ => .error "Regex did not match"

/-- The partial-number table exactly as claim C6 words it: `DDD.DD.DD`,
`DD.DD`, `DDD.DD`, `DD`, `DDD`, and everything else empty. -/
def c6ClaimTable (input : String) : Option Nat × Option Nat × Option Nat :=
  match input.data with
  | [a, b] =>
      if isDig a && isDig b then (none, some (val2 a b), none) else (none, none, none)
  | [a, b, c] =>
      if isDig a && isDig b && isDig c then (some (val3 a b c), none, none)
      else (none, none, none)
  | [a, b, c, d, e] =>
      if isDig a && isDig b && (c == '.') && isDig d && isDig e then
        (none, some (val2 a b), some (val2 d e))
      else (none, none, none)
  | [a, b, c, d, e, f] =>
      if isDig a && isDig b && isDig c && (d == '.') && isDig e && isDig f then
        (some (val3 a b c), some (val2 e f), none)
      else (none, none, none)
  | [a, b, c, d, e, f, g, h, i] =>
      if isDig a && isDig b && isDig c && (d == '.') && isDig e && isDig f && (g == '.')
          && isDig h && isDig i then
        (some (val3 a b c), some (val2 e f), some (val2 h i))
      else (none, none, none)
  | _ => (none, none, none)

/-- The amended partial-number table: the full shapes of `jd_ex` win,
then a bare three-digit project, then the category shapes of `cat_ex`
(`DD`, `.DD`, `DDDDD`, `DDD.DD`); everything else yields the empty
filter, and no input raises an error. -/
def c6AmendedTable (input : String) : Option Nat × Option Nat × Option Nat :=
  match jdDigitsCaptures input.data with
  | some (p, c, i) => (p, some c, some i)
  | none =>
    match projExCaptures input.data with
    | some p => (some p, none, none)
    | none =>
      match catExCaptures input.data with
      | some (p, c) => (p, some c, none)
      | none => (none, none, none)

/-- Model of `JdNumber::get_area`: the Rust format string
`"{area}0-{area}9{label}"` where `area` is the FIRST character of the
decimal representation of the category (`chars().nth(0).unwrap()`; the
representation is never empty, so `headD` never falls back). -/
def get_area (x : JdNumber) : String :=
  let c := (Nat.repr x.category).data.headD '0'
  ⟨c :: '0' :: '-' :: c :: '9' :: x.area_label.data⟩

/-- Model of `JdNumber::get_relative_path` as the list of pushed
components: an optional `PPP<project_label>` component (when both the
project and its label are present), the area component, the
`CC<category_label>` component, and the item component with the `PPP.`
prefix exactly when the project is present (`getD` models `unwrap()`,
which cannot fail in the branches where it is called). -/
def get_relative_path (x : JdNumber) : List String :=
  (if x.project.isSome && x.project_label.isSome then
      [pad3 (x.project.getD 0) ++ x.project_label.getD ""]
    else [])
  ++ [get_area x, pad2 x.category ++ x.category_label]
  ++ [if x.project = none then
        pad2 x.category ++ "." ++ pad2 x.id ++ x.label
      else
        pad3 (x.project.getD 0) ++ "." ++ pad2 x.category ++ "." ++ pad2 x.id ++ x.label]

/-- Model of `impl Display for JdNumber`: the short dotted form
`PPP.CC.II<label>` when a project is present, else `CC.II<label>`. -/
def toDotted (x : JdNumber) : String :=
  match x.project with
  | some p => pad3 p ++ "." ++ pad2 x.category ++ "." ++ pad2 x.id ++ x.label
  | none => pad2 x.category ++ "." ++ pad2 x.id ++ x.label

/-- Sample identifier with the single-digit category 5, used to refute
the claimed 00-09 area segment. -/
def jdCat5 : JdNumber :=
  ⟨none, none, none, 5, 2, "_x", "_area", "_cat", .path []⟩

/-- The first number of the area range that `get_area` renders: the
leading decimal digit of the category times ten. -/
def areaFirst (n : Nat) : Nat := (if n < 10 then n else n / 10) * 10

/-- Model of `struct System`: the root path (as its components) and the
ordered list of identifiers. -/
structure System where
  path : List String
  id : List JdNumber
deriving DecidableEq, Repr

/-- Result of `System::display`; `panic` models a Rust panic (the
`unwrap` of an absent project number in a due project header, or the
`expect` on the sentinel constructor). -/
inductive DispRes where
  | panic
  | err (e : String)
  | ok (s : String)
deriving DecidableEq, Repr

/-- The rendering loop of `System::display`: state is the triple of
header sentinels (project label, area label, category label); a project
header prints the UNPADDED project number and the project label, and
panics (`none`) when the entry has no project number; the area header is
indented two spaces, the category header four (with UNPADDED category
number) and the identifier line six; each line ends with a newline. -/
def renderLines : Option String × String × String → List JdNumber → Option String
  | _, [] => some ""
  | (ps, as0, cs), i :: rest =>
    let hdr : Option String :=
      if i.project_label ≠ ps then
        match i.project with
        | some p => some (Nat.repr p ++ i.project_label.getD "" ++ "\n")
        | none => none
      else some ""
    match hdr with
    | none => none
    | some h =>
      let ps2 := if i.project_label ≠ ps then i.project_label else ps
      let a := if i.area_label ≠ as0 then "  " ++ get_area i ++ "\n" else ""
      let as2 := if i.area_label ≠ as0 then i.area_label else as0
      let c := if i.category_label ≠ cs then
          "    " ++ Nat.repr i.category ++ i.category_label ++ "\n" else ""
      let cs2 := if i.category_label ≠ cs then i.category_label else cs
      match renderLines (ps2, as2, cs2) rest with
      | none => none
      | some restS => some (h ++ a ++ c ++ "      " ++ toDotted i ++ "\n" ++ restS)

/-- Model of `System::display`: parse the optional input with the shared
partial parser, select the identifiers (exact binary search when both
category and id are present, else linear filters), then render. -/
def display (sys : System) (input : Option String) : DispRes :=
  let t := parse_jd_input (input.getD "")
  let project := t.1
  let category := t.2.1
  let idv := t.2.2
  if idv.isSome ∧ category.isSome then
    match JdNumber.new "" "" (category.getD 0) (idv.getD 0) project none none "" [] with
    | .error _ => .panic
    | .ok to_find =>
      match binary_search sys.id to_find with
      | .ok pos =>
        match renderLines (none, "", "") [sys.id.getD pos to_find] with
        | none => .panic
        | some out => .ok out
      | .error _ => .err "Cannot find JD number."
  else if category.isSome then
    match renderLines (none, "", "")
        (sys.id.filter (fun i => i.category == category.getD 0 && i.project == project)) with
    | none => .panic
    | some out => .ok out
  else if project.isSome then
    match renderLines (none, "", "") (sys.id.filter (fun i => i.project == project)) with
    | none => .panic
    | some out => .ok out
  else
    match renderLines (none, "", "") sys.id with
    | none => .panic
    | some out => .ok out

/-- The hierarchical rendering as the amended C7 claim words it, by
recursion with the previous entry at hand: a project header with NO
indentation (unpadded project number) when the project label differs
from the previous entry's (treating "no previous" as an absent project
label and empty area and category labels), an area header at two spaces
when the area label differs, a category header at four spaces when the
category label differs, then the identifier line at six spaces; every
line ends with a newline; rendering panics when a project header is due
for an entry whose project number is absent. -/
def specRender : Option JdNumber → List JdNumber → Option String
  | _, [] => some ""
  | prev, i :: rest =>
    let prevP : Option String := match prev with | none => none | some e => e.project_label
    let prevA : String := match prev with | none => "" | some e => e.area_label
    let prevC : String := match prev with | none => "" | some e => e.category_label
    let hdr : Option String :=
      if i.project_label ≠ prevP then
        match i.project with
        | some p => some (Nat.repr p ++ i.project_label.getD "" ++ "\n")
        | none => none
      else some ""
    match hdr with
    | none => none
    | some h =>
      match specRender (some i) rest with
      | none => none
      | some restS =>
        some (h
          ++ (if i.area_label ≠ prevA then "  " ++ get_area i ++ "\n" else "")
          ++ (if i.category_label ≠ prevC then
                "    " ++ Nat.repr i.category ++ i.category_label ++ "\n" else "")
          ++ "      " ++ toDotted i ++ "\n" ++ restS)

/-- The sentinel state of the rendering loop corresponding to a previous
entry (absent project label and empty labels when there is none). -/
def stateOf : Option JdNumber → Option String × String × String
  | none => (none, "", "")
  | some e => (e.project_label, e.area_label, e.category_label)

/-- Sample identifier with a project, for the display counterexample. -/
def jdProj : JdNumber :=
  ⟨some 101, some "_p", some "_pa", 12, 1, "_l", "_a", "_c", .path []⟩

/-- Sample one-identifier system with a project layer. -/
def sysProj : System := ⟨[], [jdProj]⟩

/-- Model of `System::filter_id`: keep the identifiers whose project
equals the given one and whose category and id match when given. -/
def filter_id (sys : System) (project : Option Nat) (category : Option Nat)
    (idv : Option Nat) : List JdNumber :=
  sys.id.filter (fun i =>
    i.project == project
    && (category.isNone || category.getD 0 == i.category)
    && (idv.isNone || idv.getD 0 == i.id))

/-- Result of `System::add_id_from_str`; `panic` models the Rust panic
on indexing `numbers[numbers.len() - 1]` of an empty vector. -/
inductive AddRes where
  | panic
  | err (e : String)
  | ok (sys : System)
deriving DecidableEq, Repr

/-- The `Ord`-induced non-strict comparison used by `Vec::sort`. -/
def jdLe (a b : JdNumber) : Bool := !(jdCmp a b == Ordering.gt)

/-- Maximum id in a list of identifiers (zero when empty). -/
def maxId (l : List JdNumber) : Nat := l.foldr (fun y acc => max y.id acc) 0

/-- Model of `System::add_id_from_str` (Auto-Add): parse the partial
number, filter by project and category, stable-sort by `Ord`, take the
LAST element (panicking when the filter result is empty), build the next
identifier with id one larger, set its path to the root joined with its
relative path, and insert it. -/
def add_id_from_str (sys : System) (jd : String) (title : String) : AddRes :=
  let t := parse_jd_input jd
  let project := t.1
  let category := t.2.1
  match category with
  | none => .err "Could not find category."
  | some _ =>
    let numbers := (filter_id sys project category none).mergeSort jdLe
    match numbers.getLast? with
    | none => .panic
    | some number =>
      match JdNumber.new number.area_label number.category_label number.category
          (number.id + 1) number.project number.project_label number.project_area_label
          title [] with
      | .error _ => .err "Could not create JD number."
      | .ok jd0 =>
        let jd1 := { jd0 with path := Location.path (sys.path ++ get_relative_path jd0) }
        match add_id sys.id jd1 with
        | .error e => .err e
        | .ok ids => .ok { sys with id := ids }

/-- Sample identifier 12.50. -/
def jd1250 : JdNumber := ⟨none, none, none, 12, 50, "_x", "_f", "_p", .path []⟩

/-- Sample identifier 12.99 (the bucket maximum). -/
def jd1299 : JdNumber := ⟨none, none, none, 12, 99, "_y", "_f", "_p", .path []⟩

/-- Sample system whose 12-bucket holds the ids 50 and 99. -/
def sys9 : System := ⟨[], [jd1250, jd1299]⟩

/-- Skip a run of `<` characters (the `many0(char('<'))` inside the
digit matchers), reporting whether any was seen. -/
def skipLt : List Char → List Char × Bool
  | '<' :: rest => ((skipLt rest).1, true)
  | i => (i, false)

/-- `count(terminated(one_of("0123456789"), many0(char('<'))), n)`:
parse `n` digits, each optionally followed by `<` characters; returns
the digit characters and whether any `<` was consumed (in which case the
recognized slice is not a number). -/
def pDigitLtGroup : Nat → List Char → Option (List Char × (List Char × Bool))
  | 0, i => some (i, ([], false))
  | n + 1, [] => none
  | n + 1, x :: rest =>
    if isDig x then
      match skipLt rest with
      | (rest2, saw) =>
        match pDigitLtGroup n rest2 with
        | some (rem, (ds, saw2)) => some (rem, (x :: ds, saw || saw2))
        | none => none
    else none

/-- Numeric value of a list of digit characters. -/
def natOfDigits (ds : List Char) : Nat := ds.foldl (fun acc d => 10 * acc + dval d) 0

/-- `recognize(count(..., n))` followed by `parse().unwrap()`: a
recognized slice containing `<` makes the Rust `unwrap` panic, modelled
as a parser failure. -/
def matchNum (n : Nat) (i : List Char) : Option (List Char × Nat) :=
  match pDigitLtGroup n i with
  | some (rem, (ds, saw)) => if saw then none else some (rem, natOfDigits ds)
  | none => none

/-- Model of `System::match_project`. -/
def match_project (i : List Char) : Option (List Char × Nat) := matchNum 3 i

/-- Model of `System::match_area`. -/
def match_area (i : List Char) : Option (List Char × Nat) := matchNum 2 i

/-- Model of `System::match_id`. -/
def match_id (i : List Char) : Option (List Char × Nat) := matchNum 2 i

/-- nom `multispace0`: consume spaces, tabs, carriage returns, newlines. -/
def multispace0 : List Char → List Char
  | c :: rest =>
    if c = ' ' ∨ c = '\t' ∨ c = '\r' ∨ c = '\n' then multispace0 rest else c :: rest
  | [] => []

/-- nom complete `not_line_ending`: consume up to the next `\r` or `\n`;
a `\r` not followed by `\n` is an error. -/
def not_line_ending (i : List Char) : Option (List Char × List Char) :=
  let consumed := i.takeWhile (fun c => !(c == '\r' || c == '\n'))
  let rest := i.dropWhile (fun c => !(c == '\r' || c == '\n'))
  match rest with
  | '\r' :: rest2 =>
    match rest2 with
    | '\n' :: _ => some (rest, consumed)
    | _ => none
  | _ => some (rest, consumed)

/-- nom `line_ending`: `\n` or `\r\n`. -/
def line_ending : List Char → Option (List Char × Unit)
  | '\n' :: rest => some (rest, ())
  | '\r' :: '\n' :: rest => some (rest, ())
  | _ => none

/-- Model of `System::consume_newline` (`value((), opt(line_ending))`):
always succeeds. -/
def consume_newline (i : List Char) : List Char :=
  match line_ending i with
  | some (r, _) => r
  | none => i

/-- Model of `System::match_project_range`. -/
def match_project_range (i : List Char) : Option (List Char × (Nat × Nat)) :=
  match match_project i with
  | some (r1, a) =>
    match r1 with
    | '-' :: r2 =>
      match match_project r2 with
      | some (r3, b) => some (r3, (a, b))
      | none => none
    | _ => none
  | none => none

/-- Model of `System::match_area_range`. -/
def match_area_range (i : List Char) : Option (List Char × (Nat × Nat)) :=
  match match_area i with
  | some (r1, a) =>
    match r1 with
    | '-' :: r2 =>
      match match_area r2 with
      | some (r3, b) => some (r3, (a, b))
      | none => none
    | _ => none
  | none => none

/-- Model of `System::project_area_line`: leading whitespace, a
project range, the rest of the line as the label, an optional newline. -/
def project_area_line (i : List Char) : Option (List Char × ((Nat × Nat) × List Char)) :=
  let i1 := multispace0 i
  match match_project_range i1 with
  | some (r1, pr) =>
    match not_line_ending r1 with
    | some (r2, lbl) => some (consume_newline r2, (pr, lbl))
    | none => none
  | none => none

/-- Model of `System::project_line`. -/
def project_line (i : List Char) : Option (List Char × (Nat × List Char)) :=
  let i1 := multispace0 i
  match match_project i1 with
  | some (r1, p) =>
    match not_line_ending r1 with
    | some (r2, lbl) => some (consume_newline r2, (p, lbl))
    | none => none
  | none => none

/-- Model of `System::area_line`. -/
def area_line (i : List Char) : Option (List Char × ((Nat × Nat) × List Char)) :=
  let i1 := multispace0 i
  match match_area_range i1 with
  | some (r1, ar) =>
    match not_line_ending r1 with
    | some (r2, lbl) => some (consume_newline r2, (ar, lbl))
    | none => none
  | none => none

/-- Model of `System::jd_line`: optional project, optional dot,
category, dot, id, label rest, optional newline. -/
def jd_line (i : List Char) : Option (List Char × (Option Nat × Nat × Nat × List Char)) :=
  let i1 := multispace0 i
  let s2 : List Char × Option Nat :=
    match match_project i1 with
    | some (r, p) => (r, some p)
    | none => (i1, none)
  let i3 : List Char :=
    match s2.1 with
    | '.' :: r => r
    | _ => s2.1
  match match_area i3 with
  | some (i4, ac) =>
    match i4 with
    | '.' :: i5 =>
      match match_id i5 with
      | some (i6, idv) =>
        match not_line_ending i6 with
        | some (i7, lbl) => some (consume_newline i7, (s2.2, ac, idv, lbl))
        | none => none
      | none => none
    | _ => none
  | none => none

/-- Model of `System::category_line`: a two-digit number that is NOT an
area range (negative lookahead), its label, an optional newline. -/
def category_line (i : List Char) : Option (List Char × (Nat × List Char)) :=
  let i1 := multispace0 i
  match match_area_range i1 with
  | some _ => none
  | none =>
    match match_area i1 with
    | some (r1, ac) =>
      match not_line_ending r1 with
      | some (r2, lbl) => some (consume_newline r2, (ac, lbl))
      | none => none
    | none => none

/-- nom `many0`, with structural fuel; per nom semantics an inner
success that consumes nothing is an error (infinite-loop guard). -/
def many0P {α : Type} (p : List Char → Option (List Char × α)) :
    Nat → List Char → Option (List Char × List α)
  | 0, _ => none
  | fuel + 1, i =>
    match p i with
    | none => some (i, [])
    | some (r, a) =>
      if r.length < i.length then
        match many0P p fuel r with
        | some (r2, as0) => some (r2, a :: as0)
        | none => none
      else none

/-- nom `many1`: at least one result, same guard. -/
def many1P {α : Type} (p : List Char → Option (List Char × α)) (fuel : Nat)
    (i : List Char) : Option (List Char × List α) :=
  match p i with
  | none => none
  | some (r, a) =>
    if r.length < i.length then
      match many0P p fuel r with
      | some (r2, as0) => some (r2, a :: as0)
      | none => none
    else none

/-- `pair(category_line, many0(jd_line))`. -/
def catPair (fuel : Nat) (i : List Char) :
    Option (List Char × ((Nat × List Char) × List (Option Nat × Nat × Nat × List Char))) :=
  match category_line i with
  | none => none
  | some (r, cl) =>
    match many0P jd_line fuel r with
    | some (r2, jds) => some (r2, (cl, jds))
    | none => none

/-- `pair(area_line, many0(pair(category_line, many0(jd_line))))`. -/
def areaPair (fuel : Nat) (i : List Char) :
    Option (List Char × (((Nat × Nat) × List Char)
      × List ((Nat × List Char) × List (Option Nat × Nat × Nat × List Char)))) :=
  match area_line i with
  | none => none
  | some (r, al) =>
    match many0P (catPair fuel) fuel r with
    | some (r2, cats) => some (r2, (al, cats))
    | none => none

/-- `pair(project_line, many0(areaPair))`. -/
def projPair (fuel : Nat) (i : List Char) :
    Option (List Char × ((Nat × List Char)
      × List (((Nat × Nat) × List Char)
        × List ((Nat × List Char) × List (Option Nat × Nat × Nat × List Char))))) :=
  match project_line i with
  | none => none
  | some (r, pl) =>
    match many0P (areaPair fuel) fuel r with
    | some (r2, areas) => some (r2, (pl, areas))
    | none => none

/-- `pair(project_area_line, many0(projPair))`. -/
def projAreaPair (fuel : Nat) (i : List Char) :
    Option (List Char × (((Nat × Nat) × List Char)
      × List ((Nat × List Char)
        × List (((Nat × Nat) × List Char)
          × List ((Nat × List Char) × List (Option Nat × Nat × Nat × List Char)))))) :=
  match project_area_line i with
  | none => none
  | some (r, pal) =>
    match many0P (projPair fuel) fuel r with
    | some (r2, projects) => some (r2, (pal, projects))
    | none => none

/-- The raw grammar of `System::parse_without_projects`:
`many1(pair(area_line, many0(pair(category_line, many0(jd_line)))))`. -/
def grammarWithoutProjects (input : String) :=
  many1P (areaPair (input.data.length + 1)) (input.data.length + 1) input.data

/-- The raw grammar of `System::parse_with_projects`. -/
def grammarWithProjects (input : String) :=
  many1P (projAreaPair (input.data.length + 1)) (input.data.length + 1) input.data

/-- Reduction of the item lines of one category block (the innermost
loop of `System::parse_without_projects` and `parse_with_projects`,
without the project check). -/
def semIdsNoProj (area_label : List Char) (category_label : List Char)
    : List (Option Nat × Nat × Nat × List Char) → List JdNumber → Except String (List JdNumber)
  | [], ids => .ok ids
  | (project, ac, idv, label) :: rest, ids =>
    match JdNumber.new ⟨area_label⟩ ⟨category_label⟩ ac idv project none none ⟨label⟩ [] with
    | .error _ => .error "Could not create a jd number"
    | .ok jd =>
      match add_id ids jd with
      | .error _ => .error "Could not add jd number"
      | .ok ids2 => semIdsNoProj area_label category_label rest ids2

/-- Reduction of the category blocks of one area (without projects). -/
def semCatsNoProj (first last : Nat) (area_label : List Char)
    : List ((Nat × List Char) × List (Option Nat × Nat × Nat × List Char))
      → List JdNumber → Except String (List JdNumber)
  | [], ids => .ok ids
  | ((number, category_label), jds) :: rest, ids =>
    if !(first ≤ number ∧ number ≤ last) then .error "Category not between area limits"
    else
      match semIdsNoProj area_label category_label jds ids with
      | .error e => .error e
      | .ok ids2 => semCatsNoProj first last area_label rest ids2

/-- Reduction of the area blocks (without projects), with the area range
checks. -/
def semAreasNoProj
    : List (((Nat × Nat) × List Char)
        × List ((Nat × List Char) × List (Option Nat × Nat × Nat × List Char)))
      → List JdNumber → Except String (List JdNumber)
  | [], ids => .ok ids
  | (((first, last), area_label), cats) :: rest, ids =>
    if first % 10 ≠ 0 then .error "Not a multiple of 10"
    else if first + 9 ≠ last then .error "Not a difference of 9"
    else
      match semCatsNoProj first last area_label cats ids with
      | .error e => .error e
      | .ok ids2 => semAreasNoProj rest ids2

/-- Model of `System::parse_without_projects`. -/
def parse_without_projects (input : String) : Except String System :=
  match grammarWithoutProjects input with
  | none => .error "Error parsing"
  | some (_, areas) =>
    match semAreasNoProj areas [] with
    | .error e => .error e
    | .ok ids => .ok ⟨[], ids⟩

/-- Reduction of the item lines of one category block under a project
(`parse_with_projects`): the item's optional project must equal the
enclosing project; note the SOURCE passes the project-area label as the
sixth constructor argument (the `project_label` position) and the
project label as the seventh (the `project_area_label` position). -/
def semIdsProj (project : Nat) (project_area_label project_label : List Char)
    (area_label category_label : List Char)
    : List (Option Nat × Nat × Nat × List Char) → List JdNumber → Except String (List JdNumber)
  | [], ids => .ok ids
  | (jd_project, ac, idv, label) :: rest, ids =>
    if jd_project ≠ some project then .error "Project numbers do not match"
    else
      match JdNumber.new ⟨area_label⟩ ⟨category_label⟩ ac idv jd_project
          (some ⟨project_area_label⟩) (some ⟨project_label⟩) ⟨label⟩ [] with
      | .error _ => .error "Could not create a jd number"
      | .ok jd =>
        match add_id ids jd with
        | .error _ => .error "Could not add jd number"
        | .ok ids2 => semIdsProj project project_area_label project_label
            area_label category_label rest ids2

/-- Reduction of the category blocks of one area (with projects). -/
def semCatsProj (project : Nat) (project_area_label project_label : List Char)
    (first last : Nat) (area_label : List Char)
    : List ((Nat × List Char) × List (Option Nat × Nat × Nat × List Char))
      → List JdNumber → Except String (List JdNumber)
  | [], ids => .ok ids
  | ((number, category_label), jds) :: rest, ids =>
    if !(first ≤ number ∧ number ≤ last) then .error "Category not between area limits"
    else
      match semIdsProj project project_area_label project_label area_label
          category_label jds ids with
      | .error e => .error e
      | .ok ids2 => semCatsProj project project_area_label project_label first last
          area_label rest ids2

/-- Reduction of the area blocks of one project. -/
def semAreasProj (project : Nat) (project_area_label project_label : List Char)
    : List (((Nat × Nat) × List Char)
        × List ((Nat × List Char) × List (Option Nat × Nat × Nat × List Char)))
      → List JdNumber → Except String (List JdNumber)
  | [], ids => .ok ids
  | (((first, last), area_label), cats) :: rest, ids =>
    if first % 10 ≠ 0 then .error "Not a multiple of 10"
    else if first + 9 ≠ last then .error "Not a difference of 9"
    else
      match semCatsProj project project_area_label project_label first last
          area_label cats ids with
      | .error e => .error e
      | .ok ids2 => semAreasProj project project_area_label project_label rest ids2

/-- Reduction of the project lines of one project-area block: the range
checks on the PROJECT-AREA numbers run inside this per-project loop, so
a block with no project lines is never checked. -/
def semProjects (project_first project_last : Nat) (project_area_label : List Char)
    : List ((Nat × List Char)
        × List (((Nat × Nat) × List Char)
          × List ((Nat × List Char) × List (Option Nat × Nat × Nat × List Char))))
      → List JdNumber → Except String (List JdNumber)
  | [], ids => .ok ids
  | ((project, project_label), areas) :: rest, ids =>
    if !(project_first ≤ project ∧ project ≤ project_last) then
      .error "Project not between project ranges"
    else if project_first % 100 ≠ 0 then .error "First project number not a multiple of 100"
    else if project_first + 99 ≠ project_last then
      .error "Second project number not 99 greater than first"
    else
      match semAreasProj project project_area_label project_label areas ids with
      | .error e => .error e
      | .ok ids2 => semProjects project_first project_last project_area_label rest ids2

/-- Reduction of the project-area blocks. -/
def semProjAreas
    : List ((((Nat × Nat) × List Char)
        × List ((Nat × List Char)
          × List (((Nat × Nat) × List Char)
            × List ((Nat × List Char) × List (Option Nat × Nat × Nat × List Char))))))
      → List JdNumber → Except String (List JdNumber)
  | [], ids => .ok ids
  | (((pfirst, plast), pa_label), projects) :: rest, ids =>
    match semProjects pfirst plast pa_label projects ids with
    | .error e => .error e
    | .ok ids2 => semProjAreas rest ids2

/-- Model of `System::parse_with_projects`. -/
def parse_with_projects (input : String) : Except String System :=
  match grammarWithProjects input with
  | none => .error "Error parsing"
  | some (_, blocks) =>
    match semProjAreas blocks [] with
    | .error e => .error e
    | .ok ids => .ok ⟨[], ids⟩

/-- The project-area blocks recognized by the with-projects grammar
(empty when the grammar fails). -/
def pwBlocks (input : String) :=
  match grammarWithProjects input with
  | some x => x.2
  | none => []

/-- Captures of `project_ex` = `^(\d\d\d)([^0-9.].*)$` on one component:
the class `[^0-9.]` matches a newline, but `.` does not and the
unflagged `$` anchors at the end of the haystack, so only the first
label character may be a newline. -/
def projectCaptures : List Char → Option (Nat × String)
  | c1 :: c2 :: c3 :: c4 :: rest =>
      if isDig c1 && isDig c2 && isDig c3 && !(isDig c4) && !(c4 == '.')
          && !(rest.contains '\n') then
        some (val3 c1 c2 c3, ⟨c4 :: rest⟩)
      else none
  | _ => none

/-- Captures of `area_ex` = `^(\d\d)-(\d\d)(\D.*)$` on one component:
`\D` matches a newline, `.` does not, so only the first label
character may be a newline. -/
def areaCaptures : List Char → Option (Nat × Nat × String)
  | c1 :: c2 :: c3 :: c4 :: c5 :: c6 :: rest =>
      if isDig c1 && isDig c2 && (c3 == '-') && isDig c4 && isDig c5 && !(isDig c6)
          && !(rest.contains '\n') then
        some (val2 c1 c2, val2 c4 c5, ⟨c6 :: rest⟩)
      else none
  | _ => none

/-- Captures of `category_ex` = `^(\d\d)([^0-9.].*)$` on one component:
`[^0-9.]` matches a newline, `.` does not, so only the first label
character may be a newline. -/
def categoryCaptures : List Char → Option (Nat × String)
  | c1 :: c2 :: c3 :: rest =>
      if isDig c1 && isDig c2 && !(isDig c3) && !(c3 == '.')
          && !(rest.contains '\n') then
        some (val2 c1 c2, ⟨c3 :: rest⟩)
      else none
  | _ => none

/-- The `\.?(\d\d)\.(\d\d)(\D.*)$` tail of the item regex after the
optional dot (a leading dot is committed: the following `(\d\d)` can
never match it).  `\D` may consume a newline; the greedy `.*` then runs
to the next line boundary, where the multiline `$` matches, so the
captured name is the `\D` character followed by the remainder of its
line. -/
def jdTail2 : List Char → Option (Nat × Nat × String)
  | a :: b :: c :: d :: e :: f :: rest =>
      if isDig a && isDig b && (c == '.') && isDig d && isDig e && !(isDig f) then
        some (val2 a b, val2 d e, ⟨f :: rest.takeWhile (fun ch => !(ch == '\n'))⟩)
      else none
  | _ => none

/-- The `\.?` of the item regex. -/
def jdTail : List Char → Option (Nat × Nat × String)
  | [] => jdTail2 []
  | a :: rest => if a = '.' then jdTail2 rest else jdTail2 (a :: rest)

/-- One line matched against `jd_ex` = `^(\d\d\d)?\.?(\d\d)\.(\d\d)(\D.*)$`
with backtracking: the three-digit project group is tried first and
dropped when the tail fails. -/
def jdLinePattern (l : List Char) : Option (Option Nat × Nat × Nat × String) :=
  match l with
  | c1 :: c2 :: c3 :: rest1 =>
    if isDig c1 && isDig c2 && isDig c3 then
      match jdTail rest1 with
      | some (c, i, nm) => some (some (val3 c1 c2 c3), c, i, nm)
      | none =>
        match jdTail l with
        | some (c, i, nm) => some (none, c, i, nm)
        | none => none
    else
      match jdTail l with
      | some (c, i, nm) => some (none, c, i, nm)
      | none => none
  | l2 =>
    match jdTail l2 with
    | some (c, i, nm) => some (none, c, i, nm)
    | none => none

/-- The suffixes of a component that start just after a newline: with
the `(?m)` flag, `^` anchors at the start of the haystack and after
every newline, so these (together with the whole component) are the
candidate match starts, in leftmost order. -/
def nlSuffixes : List Char → List (List Char)
  | [] => []
  | c :: rest =>
    if c = '\n' then rest :: nlSuffixes rest else nlSuffixes rest

/-- First candidate start with a `jd_ex` match. -/
def jdCapturesAux : List (List Char) → Option (Option Nat × Nat × Nat × String)
  | [] => none
  | line :: rest =>
    match jdLinePattern line with
    | some r => some r
    | none => jdCapturesAux rest

/-- Captures of the multiline `jd_ex` regex `(?m)^(\d\d\d)?\.?(\d\d)\.(\d\d)(\D.*)$`
on one component: the leftmost match, whose start is the component start
or a position just after a newline; the digits and dots lie within one
line, while the `\D` of the name group may consume the terminating
newline, extending the match over the following line. -/
def jdCaptures (l : List Char) : Option (Option Nat × Nat × Nat × String) :=
  jdCapturesAux (l :: nlSuffixes l)

/-- The mutable capture variables of `TryFrom<PathBuf> for JdNumber`. -/
structure PathScan where
  project : Option Nat := none
  project_name : Option String := none
  area : Option (Nat × Nat) := none
  area_name : Option String := none
  category : Option Nat := none
  category_name : Option String := none
  jd_project : Option Nat := none
  jd_category : Option Nat := none
  jd_id : Option Nat := none
  jd_name : Option String := none
deriving DecidableEq, Repr

/-- Matching one path component against the four consulted regexes (the
project-area regex only feeds unused variables and is omitted): each
match overwrites its capture group of variables. -/
def scanComp (s : PathScan) (comp : String) : PathScan :=
  let s1 :=
    match projectCaptures comp.data with
    | some (p, nm) => { s with project := some p, project_name := some nm }
    | none => s
  let s2 :=
    match areaCaptures comp.data with
    | some (a, b, nm) => { s1 with area := some (a, b), area_name := some nm }
    | none => s1
  let s3 :=
    match categoryCaptures comp.data with
    | some (cv, nm) => { s2 with category := some cv, category_name := some nm }
    | none => s2
  match jdCaptures comp.data with
  | some (jp, jc, ji, jn) =>
    { s3 with jd_project := jp, jd_category := some jc, jd_id := some ji,
              jd_name := some jn }
  | none => s3

/-- Model of `impl TryFrom<PathBuf> for JdNumber`: scan every component,
then apply the checks and the fallible projections in source order (the
eight-argument constructor of the jdnumber module has no project-area
label, so the field is absent). -/
def tryFromPath (comps : List String) : Except String JdNumber :=
  let s := comps.foldl scanComp {}
  if s.project ≠ s.jd_project then .error ""
  else if s.category ≠ s.jd_category then .error ""
  else
    match s.area with
    | none => .error ""
    | some (a1, a2) =>
      if a1 % 10 ≠ 0 then .error "First area number is not a multiple of 10."
      else if a2 ≠ a1 + 9 then .error "Second area number is not 9 more than the first number."
      else
        match s.area_name with
        | none => .error "Could not find area name"
        | some an =>
          match s.category_name with
          | none => .error "Could not find category name"
          | some cn =>
            match s.category with
            | none => .error "Could not find category"
            | some cat =>
              match s.jd_id with
              | none => .error "Could not find id"
              | some idv =>
                match s.jd_name with
                | none => .error "Could not find JD name"
                | some jn =>
                  match JdNumber.new an cn cat idv s.project s.project_name none jn comps with
                  | .ok jd => .ok jd
                  | .error _ => .error "Could not create JD number"

/-- The shape of a `(\D.*)` capture: nonempty, starting with a
non-digit (possibly a newline, which `\D` matches), with no newline
after the first character (`.` cannot match one). -/
def labelOk1 (nm : String) : Prop :=
  nm.data ≠ [] ∧ (nm.data.headD ' ').isDigit = false ∧ '\n' ∉ nm.data.tail

/-- The shape of a `([^0-9.].*)` capture. -/
def labelOk2 (nm : String) : Prop :=
  labelOk1 nm ∧ nm.data.headD ' ' ≠ '.'

/-- The invariant maintained by the component scan: paired captures are
present together, numeric captures respect their digit budgets, and
labels have their regex shapes. -/
def ScanInv (s : PathScan) : Prop :=
  (s.project.isSome ↔ s.project_name.isSome)
  ∧ (∀ p, s.project = some p → p ≤ 999)
  ∧ (∀ nm, s.project_name = some nm → labelOk2 nm)
  ∧ (s.area.isSome ↔ s.area_name.isSome)
  ∧ (∀ a b, s.area = some (a, b) → a ≤ 99 ∧ b ≤ 99)
  ∧ (∀ nm, s.area_name = some nm → labelOk1 nm)
  ∧ (s.category.isSome ↔ s.category_name.isSome)
  ∧ (∀ cv, s.category = some cv → cv ≤ 99)
  ∧ (∀ nm, s.category_name = some nm → labelOk2 nm)
  ∧ (∀ iv, s.jd_id = some iv → iv ≤ 99)
  ∧ (∀ q, s.jd_project = some q → q ≤ 999)
  ∧ (∀ nm, s.jd_name = some nm → labelOk1 nm)

/-- Result of `System::parse`; `panic` models the Rust panic when both
productions succeed. -/
inductive SysParseRes where
  | panic
  | err (e : String)
  | ok (sys : System)
deriving DecidableEq, Repr

/-- Model of `System::parse`: try both productions; exactly one must
succeed. -/
def System.parse (input : String) : SysParseRes :=
  match parse_with_projects input, parse_without_projects input with
  | .ok sys, .error _ => .ok sys
  | .error _, .ok sys => .ok sys
  | .error _, .error _ => .err "Could not parse system."
  | .ok _, .ok _ => .panic

/-- Sample identifier as parsed from the repository's own test path
`20-29_testing/20_good_testing/20.35_test`. -/
def c3X : JdNumber :=
  ⟨none, none, none, 20, 35, "_test", "_testing", "_good_testing",
   .path ["20-29_testing", "20_good_testing", "20.35_test"]⟩

theorem jdCmp_lt_iff {a b : JdNumber} : jdCmp a b = .lt ↔ keyLt a b := by
  rcases ha : a.project with _ | p <;> rcases hb : b.project with _ | q <;>
    simp only [jdCmp, keyLt, pk, ha, hb] <;> repeat' split
  all_goals simp_all <;> omega

theorem jdCmp_gt_iff {a b : JdNumber} : jdCmp a b = .gt ↔ keyLt b a := by
  rcases ha : a.project with _ | p <;> rcases hb : b.project with _ | q <;>
    simp only [jdCmp, keyLt, pk, ha, hb] <;> repeat' split
  all_goals simp_all <;> omega

theorem jdCmp_eq_iff {a b : JdNumber} :
    jdCmp a b = .eq ↔
      pk a.project = pk b.project ∧ a.category = b.category ∧ a.id = b.id := by
  rcases ha : a.project with _ | p <;> rcases hb : b.project with _ | q <;>
    simp only [jdCmp, keyLt, pk, ha, hb] <;> repeat' split
  all_goals simp_all <;> omega

theorem cmp_lt_trans {a b c : JdNumber}
    (h1 : jdCmp a b = .lt) (h2 : jdCmp b c = .lt) : jdCmp a c = .lt := by
  rw [jdCmp_lt_iff] at h1 h2 ⊢
  rcases h1 with h1 | ⟨e1, h1⟩ <;> rcases h2 with h2 | ⟨e2, h2⟩ <;>
    simp only [keyLt] <;> omega

theorem cmp_lt_of_lt_of_cmp_eq {a b c : JdNumber}
    (h1 : jdCmp a b = .lt) (h2 : jdCmp b c = .eq) : jdCmp a c = .lt := by
  rw [jdCmp_lt_iff] at h1 ⊢
  rw [jdCmp_eq_iff] at h2
  rcases h1 with h1 | ⟨e1, h1⟩ <;> simp only [keyLt] <;> omega

theorem cmp_gt_of_gt_of_lt {a b t : JdNumber}
    (h1 : jdCmp a t = .gt) (h2 : jdCmp a b = .lt) : jdCmp b t = .gt := by
  rw [jdCmp_gt_iff] at h1 ⊢
  rw [jdCmp_lt_iff] at h2
  rcases h1 with h1 | ⟨e1, h1⟩ <;> rcases h2 with h2 | ⟨e2, h2⟩ <;>
    simp only [keyLt] <;> omega


instance : IsTrans JdNumber (fun a b => jdCmp a b = .lt) := ⟨fun _ _ _ => cmp_lt_trans⟩

theorem sorted_getD_lt {xs : List JdNumber} (hs : sortedLt xs) {i j : Nat} (t : JdNumber)
    (hij : i < j) (hj : j < xs.length) : jdCmp (xs.getD i t) (xs.getD j t) = .lt := by
  have hp : List.Pairwise (fun a b => jdCmp a b = .lt) xs :=
    (List.chain'_iff_pairwise).mp hs
  have hi : i < xs.length := Nat.lt_trans hij hj
  rw [List.getD_eq_getElem xs t hi, List.getD_eq_getElem xs t hj]
  exact List.pairwise_iff_getElem.mp hp i j hi hj hij

theorem bsLoop_spec (xs : List JdNumber) (t : JdNumber) (hs : sortedLt xs) :
    ∀ fuel left right, right ≤ xs.length → left ≤ right → right - left < fuel →
      (∀ j, j < left → j < xs.length → jdCmp (xs.getD j t) t = .lt) →
      (∀ j, right ≤ j → j < xs.length → jdCmp (xs.getD j t) t = .gt) →
      (∀ i, bsLoop xs t fuel left right = .ok i →
          i < xs.length ∧ jdCmp (xs.getD i t) t = .eq)
      ∧ (∀ pos, bsLoop xs t fuel left right = .error pos → pos ≤ xs.length ∧
          (∀ j, j < pos → j < xs.length → jdCmp (xs.getD j t) t = .lt) ∧
          (∀ j, pos ≤ j → j < xs.length → jdCmp (xs.getD j t) t = .gt)) := by
  intro fuel
  induction fuel with
  | zero => intro left right _ _ hfuel _ _; omega
  | succ fuel ih =>
    intro left right hrlen hlr0 hfuel hleft hright
    by_cases hlr : left < right
    · have hmid : left + (right - left) / 2 < right := by omega
      have hmidlen : left + (right - left) / 2 < xs.length := by omega
      set mid := left + (right - left) / 2 with hmiddef
      rcases hc : jdCmp (xs.getD mid t) t with _ | _ | _
      · -- lt: move left past mid
        have hrec := ih (mid + 1) right hrlen (by omega) (by omega)
          (fun j hj hjlen => by
            by_cases hjl : j < left
            · exact hleft j hjl hjlen
            · by_cases hjm : j < mid
              · exact cmp_lt_trans (sorted_getD_lt hs t hjm hmidlen) hc
              · have : j = mid := by omega
                rw [this]; exact hc)
          hright
        constructor
        · intro i hres
          refine hrec.1 i ?_
          rw [← hres]
          simp only [bsLoop, if_pos hlr, ← hmiddef, hc]
        · intro pos hres
          refine hrec.2 pos ?_
          rw [← hres]
          simp only [bsLoop, if_pos hlr, ← hmiddef, hc]
      · -- eq: found
        constructor
        · intro i hres
          simp only [bsLoop, if_pos hlr, ← hmiddef, hc, Except.ok.injEq] at hres
          rw [← hres]
          exact ⟨hmidlen, hc⟩
        · intro pos hres
          simp only [bsLoop, if_pos hlr, ← hmiddef, hc] at hres
          exact Except.noConfusion hres
      · -- gt: move right down to mid
        have hrec := ih left mid (by omega) (by omega) (by omega) hleft
          (fun j hj hjlen => by
            by_cases hjm : j = mid
            · rw [hjm]; exact hc
            · exact cmp_gt_of_gt_of_lt hc (sorted_getD_lt hs t (by omega) hjlen))
        constructor
        · intro i hres
          refine hrec.1 i ?_
          rw [← hres]
          simp only [bsLoop, if_pos hlr, ← hmiddef, hc]
        · intro pos hres
          refine hrec.2 pos ?_
          rw [← hres]
          simp only [bsLoop, if_pos hlr, ← hmiddef, hc]
    · constructor
      · intro i hres
        simp only [bsLoop, if_neg hlr] at hres
        exact Except.noConfusion hres
      · intro pos hres
        simp only [bsLoop, if_neg hlr, Except.error.injEq] at hres
        subst hres
        exact ⟨by omega, fun j hj hjlen => hleft j hj hjlen,
          fun j hj hjlen => hright j (by omega) hjlen⟩

theorem binary_search_ok {xs : List JdNumber} {t : JdNumber} (hs : sortedLt xs) {i : Nat}
    (h : binary_search xs t = .ok i) : i < xs.length ∧ jdCmp (xs.getD i t) t = .eq :=
  (bsLoop_spec xs t hs (xs.length + 1) 0 xs.length (le_refl _) (by omega) (by omega)
    (fun j hj _ => absurd hj (by omega)) (fun j hj hjlen => absurd hjlen (by omega))).1 i h

theorem binary_search_err {xs : List JdNumber} {t : JdNumber} (hs : sortedLt xs) {pos : Nat}
    (h : binary_search xs t = .error pos) : pos ≤ xs.length ∧
      (∀ j, j < pos → j < xs.length → jdCmp (xs.getD j t) t = .lt) ∧
      (∀ j, pos ≤ j → j < xs.length → jdCmp (xs.getD j t) t = .gt) :=
  (bsLoop_spec xs t hs (xs.length + 1) 0 xs.length (le_refl _) (by omega) (by omega)
    (fun j hj _ => absurd hj (by omega)) (fun j hj hjlen => absurd hjlen (by omega))).2 pos h

theorem binary_search_ok_iff {xs : List JdNumber} {t : JdNumber} (hs : sortedLt xs) :
    (∃ i, binary_search xs t = .ok i) ↔ ∃ y ∈ xs, jdCmp y t = .eq := by
  constructor
  · rintro ⟨i, hi⟩
    obtain ⟨hlen, heq⟩ := binary_search_ok hs hi
    exact ⟨xs.getD i t, by rw [List.getD_eq_getElem xs t hlen]; exact List.getElem_mem _, heq⟩
  · rintro ⟨y, hy, heq⟩
    rcases hres : binary_search xs t with pos | i
    · exfalso
      obtain ⟨j, hj, hjy⟩ := List.mem_iff_getElem.mp hy
      obtain ⟨hpos, hlt, hgt⟩ := binary_search_err hs hres
      have hjd : xs.getD j t = y := by rw [List.getD_eq_getElem xs t hj, hjy]
      by_cases hjp : j < pos
      · have := hlt j hjp hj
        rw [hjd, heq] at this
        exact Ordering.noConfusion this
      · have := hgt j (by omega) hj
        rw [hjd, heq] at this
        exact Ordering.noConfusion this
    · exact ⟨i, rfl⟩

theorem insert_sorted {xs : List JdNumber} {t : JdNumber} (hs : sortedLt xs) {pos : Nat}
    (h : binary_search xs t = .error pos) :
    sortedLt (xs.take pos ++ t :: xs.drop pos) := by
  obtain ⟨hpos, hlt, hgt⟩ := binary_search_err hs h
  have hp : List.Pairwise (fun a b => jdCmp a b = .lt) xs := List.chain'_iff_pairwise.mp hs
  rw [sortedLt, List.chain'_iff_pairwise, List.pairwise_append]
  refine ⟨hp.sublist (List.take_sublist pos xs), ?_, ?_⟩
  · rw [List.pairwise_cons]
    refine ⟨?_, hp.sublist (List.drop_sublist pos xs)⟩
    intro y hy
    obtain ⟨j, hj, rfl⟩ := List.getElem_of_mem hy
    have hjlen : pos + j < xs.length := by
      rw [List.length_drop] at hj
      omega
    rw [List.getElem_drop]
    have hg := hgt (pos + j) (by omega) hjlen
    rw [List.getD_eq_getElem xs t hjlen] at hg
    rw [jdCmp_gt_iff] at hg
    rw [jdCmp_lt_iff]
    exact hg
  · intro x hx y hy
    rw [List.mem_cons] at hy
    rcases hy with hy | hy
    · obtain ⟨i, hi, rfl⟩ := List.getElem_of_mem hx
      have hilen : i < xs.length := by
        rw [List.length_take] at hi
        omega
      have hipos : i < pos := by
        rw [List.length_take] at hi
        omega
      rw [hy, List.getElem_take]
      have := hlt i hipos hilen
      rwa [List.getD_eq_getElem xs t hilen] at this
    · obtain ⟨i, hi, rfl⟩ := List.getElem_of_mem hx
      obtain ⟨j, hj, rfl⟩ := List.getElem_of_mem hy
      have hilen : i < xs.length := by
        rw [List.length_take] at hi
        omega
      have hipos : i < pos := by
        rw [List.length_take] at hi
        omega
      have hjlen : pos + j < xs.length := by
        rw [List.length_drop] at hj
        omega
      rw [List.getElem_take, List.getElem_drop]
      have hplt : i < pos + j := by omega
      have := sorted_getD_lt hs t hplt hjlen
      rwa [List.getD_eq_getElem xs t hilen, List.getD_eq_getElem xs t hjlen] at this

theorem reachable_sorted {l : List JdNumber} (h : Reachable l) : sortedLt l := by
  induction h with
  | nil => exact List.chain'_nil
  | step l x _ ih =>
    unfold applyAdd add_id
    rcases hres : binary_search l x with pos | i
    · simpa using insert_sorted ih hres
    · simpa using ih

theorem isDig_bounds {c : Char} (h : isDig c = true) : 48 ≤ c.toNat ∧ c.toNat ≤ 57 := by
  simp only [isDig, Char.isDigit, ge_iff_le, Bool.and_eq_true, decide_eq_true_eq] at h
  exact h

theorem dval_le9 {c : Char} (h : isDig c = true) : dval c ≤ 9 := by
  obtain ⟨h1, h2⟩ := isDig_bounds h
  unfold dval
  omega

theorem val2_le99 {a b : Char} (ha : isDig a = true) (hb : isDig b = true) :
    val2 a b ≤ 99 := by
  have := dval_le9 ha
  have := dval_le9 hb
  unfold val2
  omega

theorem val3_le999 {a b c : Char} (ha : isDig a = true) (hb : isDig b = true)
    (hc : isDig c = true) : val3 a b c ≤ 999 := by
  have := dval_le9 ha
  have := dval_le9 hb
  have := dval_le9 hc
  unfold val3
  omega

theorem new_eq_ok {al cl lbl : String} {cat idv : Nat} {proj : Option Nat}
    {plbl palbl : Option String} {pth : List String}
    (h1 : cat ≤ 99) (h2 : idv ≤ 99) (h3 : ∀ p, proj = some p → p ≤ 999) :
    JdNumber.new al cl cat idv proj plbl palbl lbl pth =
      .ok ⟨proj, plbl, palbl, cat, idv, lbl, al, cl, .path pth⟩ := by
  cases proj with
  | none =>
    unfold JdNumber.new
    rw [if_neg (by omega)]
  | some p =>
    have hple : p ≤ 999 := h3 p rfl
    unfold JdNumber.new
    rw [if_neg (by omega)]
    exact if_neg (by omega)

theorem projEx_catEx_disjoint {l : List Char} {p : Nat}
    (h : projExCaptures l = some p) : catExCaptures l = none := by
  rcases l with _ | ⟨a, _ | ⟨b, _ | ⟨c, _ | ⟨d, t⟩⟩⟩⟩
  · simp [projExCaptures] at h
  · simp [projExCaptures] at h
  · simp [projExCaptures] at h
  · simp only [projExCaptures] at h
    by_cases hd : (isDig a && isDig b && isDig c) = true
    · simp only [catExCaptures]
      rw [if_neg]
      simp only [Bool.and_eq_true] at hd
      obtain ⟨⟨ha, hb⟩, hc⟩ := hd
      intro hcond
      simp only [Bool.and_eq_true, beq_iff_eq] at hcond
      obtain ⟨⟨hadot, hb2⟩, hc2⟩ := hcond
      rw [hadot] at ha
      exact absurd ha (by decide)
    · rw [if_neg hd] at h
      exact Option.noConfusion h
  · simp [projExCaptures] at h

theorem string_ext {a b : String} (h : a.data = b.data) : a = b := by
  cases a
  cases b
  exact congrArg String.mk h

set_option maxRecDepth 10000 in
theorem area_prefix_eq : ∀ n, n < 100 →
    ((Nat.repr n).data.headD '0') :: '0' :: '-' :: ((Nat.repr n).data.headD '0') :: '9' :: []
      = (pad2 (areaFirst n)).data ++ '-' :: (pad2 (areaFirst n + 9)).data := by decide

theorem ite_ne_self {α : Type} [DecidableEq α] (a b : α) :
    (if a ≠ b then a else b) = a := by
  by_cases h : a = b <;> simp [h]

theorem render_eq_spec : ∀ (l : List JdNumber) (prev : Option JdNumber),
    renderLines (stateOf prev) l = specRender prev l := by
  intro l
  induction l with
  | nil => intro prev; cases prev <;> rfl
  | cons i rest ih =>
    intro prev
    have hrec : renderLines (i.project_label, i.area_label, i.category_label) rest
        = specRender (some i) rest := ih (some i)
    cases prev with
    | none =>
      simp only [renderLines, specRender, stateOf, ite_ne_self, hrec]
    | some e =>
      simp only [renderLines, specRender, stateOf, ite_ne_self, hrec]

theorem add_id_error_msg {l : List JdNumber} {x : JdNumber} {e : String}
    (h : add_id l x = .error e) : e = "Element already exists." := by
  rcases hbs : binary_search l x with pos | i <;> simp only [add_id, hbs] at h
  · exact Except.noConfusion h
  · exact (Except.error.inj h).symm

theorem beq_gt_false {o : Ordering} (h : o ≠ Ordering.gt) : (o == Ordering.gt) = false := by
  cases o with
  | lt => rfl
  | eq => rfl
  | gt => exact absurd rfl h

theorem jdLe_refl (a : JdNumber) : jdLe a a = true := by
  have : jdCmp a a = .eq := jdCmp_eq_iff.mpr ⟨rfl, rfl, rfl⟩
  simp [jdLe, this]
  decide

theorem not_keyLt_of_jdLe {a b : JdNumber} (h : jdLe a b = true) : ¬ keyLt b a := by
  intro hk
  have : jdCmp a b = .gt := jdCmp_gt_iff.mpr hk
  rw [jdLe, this] at h
  exact absurd h (by decide)

theorem jdLe_trans (a b c : JdNumber) (h1 : jdLe a b = true) (h2 : jdLe b c = true) :
    jdLe a c = true := by
  have k1 := not_keyLt_of_jdLe h1
  have k2 := not_keyLt_of_jdLe h2
  by_cases h : jdCmp a c = .gt
  · exfalso
    rw [jdCmp_gt_iff] at h
    unfold keyLt at *
    omega
  · simp only [jdLe, Bool.not_eq_true']
    rw [beq_gt_false h]

theorem jdLe_total (a b : JdNumber) : jdLe a b || jdLe b a := by
  by_cases hab : jdCmp a b = Ordering.gt
  · have hba : jdCmp b a ≠ Ordering.gt := by
      intro h
      rw [jdCmp_gt_iff] at h hab
      unfold keyLt at *
      omega
    simp only [jdLe, Bool.or_eq_true, Bool.not_eq_true']
    exact Or.inr (beq_gt_false hba)
  · simp only [jdLe, Bool.or_eq_true, Bool.not_eq_true']
    exact Or.inl (beq_gt_false hab)

theorem getLast?_ge_of_pairwise :
    ∀ {l : List JdNumber}, List.Pairwise (fun a b => jdLe a b = true) l →
      ∀ {last}, l.getLast? = some last → ∀ x ∈ l, jdLe x last = true := by
  intro l
  induction l with
  | nil =>
    intro _ last h
    exact absurd h (by simp)
  | cons y ys ih =>
    intro hp last hlast x hx
    cases ys with
    | nil =>
      simp only [List.getLast?_singleton, Option.some.injEq] at hlast
      rw [List.mem_singleton] at hx
      rw [hx, ← hlast]
      exact jdLe_refl y
    | cons z zs =>
      rw [List.getLast?_cons_cons] at hlast
      rw [List.pairwise_cons] at hp
      obtain ⟨hy, hp2⟩ := hp
      rw [List.mem_cons] at hx
      rcases hx with hxy | hx
      · rw [hxy]
        exact hy last (List.mem_of_getLast?_eq_some hlast)
      · exact ih hp2 hlast x hx

theorem pk_inj {o1 o2 : Option Nat} (h : pk o1 = pk o2) : o1 = o2 := by
  cases o1 <;> cases o2 <;> simp [pk] at h ⊢ <;> omega

theorem mem_filter_id_some {sys : System} {p : Option Nat} {c : Nat} {y : JdNumber} :
    y ∈ filter_id sys p (some c) none ↔ y ∈ sys.id ∧ y.project = p ∧ y.category = c := by
  simp only [filter_id, List.mem_filter, Bool.and_eq_true, beq_iff_eq, Option.isNone_none,
    Option.isNone_some, Bool.or_eq_true, Option.getD_some]
  constructor
  · rintro ⟨hmem, h2⟩
    refine ⟨hmem, h2.1.1, ?_⟩
    rcases h2.1.2 with hf | hcat
    · exact absurd hf (by simp)
    · exact hcat.symm
  · rintro ⟨hmem, hproj, hcat⟩
    exact ⟨hmem, ⟨hproj, Or.inr hcat.symm⟩, by simp⟩

theorem maxId_cons (x : JdNumber) (l : List JdNumber) :
    maxId (x :: l) = max x.id (maxId l) := rfl

theorem maxId_append (l1 l2 : List JdNumber) :
    maxId (l1 ++ l2) = max (maxId l1) (maxId l2) := by
  induction l1 with
  | nil => simp [maxId]
  | cons x l ih =>
    rw [List.cons_append, maxId_cons, maxId_cons, ih]
    omega

theorem le_maxId {l : List JdNumber} {y : JdNumber} (h : y ∈ l) : y.id ≤ maxId l := by
  induction l with
  | nil => exact absurd h (by simp)
  | cons x xs ih =>
    rw [List.mem_cons] at h
    rw [maxId_cons]
    rcases h with h | h
    · rw [h]; omega
    · have := ih h; omega

theorem maxId_le {l : List JdNumber} {n : Nat} (h : ∀ y ∈ l, y.id ≤ n) : maxId l ≤ n := by
  induction l with
  | nil => simp [maxId]
  | cons x xs ih =>
    rw [maxId_cons]
    have h1 := h x (by simp)
    have h2 := ih (fun y hy => h y (by simp [hy]))
    omega

theorem char_eq_ofNat {c : Char} (h : isDig c = true) : c = Char.ofNat (48 + dval c) := by
  obtain ⟨h1, _⟩ := isDig_bounds h
  have he : 48 + dval c = c.toNat := by unfold dval; omega
  rw [he, Char.ofNat_toNat]

theorem isDig_ofNat : ∀ d, d ≤ 9 → isDig (Char.ofNat (48 + d)) = true := by decide

theorem dval_ofNat : ∀ d, d ≤ 9 → dval (Char.ofNat (48 + d)) = d := by decide

theorem pad2_digits : ∀ n, n < 100 →
    (pad2 n).data = [Char.ofNat (48 + n / 10), Char.ofNat (48 + n % 10)] := by decide

set_option maxRecDepth 10000 in
theorem pad3_digits : ∀ n, n < 1000 →
    (pad3 n).data = [Char.ofNat (48 + n / 100), Char.ofNat (48 + n / 10 % 10),
      Char.ofNat (48 + n % 10)] := by decide

theorem repr_head_digit : ∀ n, n < 100 → isDig ((Nat.repr n).data.headD '0') = true := by
  decide

theorem pad2_spec {n : Nat} (h : n ≤ 99) :
    ∃ a b, (pad2 n).data = [a, b] ∧ isDig a = true ∧ isDig b = true ∧ val2 a b = n := by
  refine ⟨_, _, pad2_digits n (by omega), isDig_ofNat _ (by omega),
    isDig_ofNat _ (by omega), ?_⟩
  unfold val2
  rw [dval_ofNat _ (by omega), dval_ofNat _ (by omega)]
  omega

theorem pad3_spec {n : Nat} (h : n ≤ 999) :
    ∃ a b c, (pad3 n).data = [a, b, c] ∧ isDig a = true ∧ isDig b = true ∧ isDig c = true
      ∧ val3 a b c = n := by
  refine ⟨_, _, _, pad3_digits n (by omega), isDig_ofNat _ (by omega),
    isDig_ofNat _ (by omega), isDig_ofNat _ (by omega), ?_⟩
  unfold val3
  rw [dval_ofNat _ (by omega), dval_ofNat _ (by omega), dval_ofNat _ (by omega)]
  omega

theorem pad2_val2 {a b : Char} (ha : isDig a = true) (hb : isDig b = true) :
    (pad2 (val2 a b)).data = [a, b] := by
  have h9a := dval_le9 ha
  have h9b := dval_le9 hb
  rw [pad2_digits _ (by have := val2_le99 ha hb; omega)]
  have h1 : val2 a b / 10 = dval a := by unfold val2; omega
  have h2 : val2 a b % 10 = dval b := by unfold val2; omega
  rw [h1, h2, ← char_eq_ofNat ha, ← char_eq_ofNat hb]

theorem pad3_val3 {a b c : Char} (ha : isDig a = true) (hb : isDig b = true)
    (hc : isDig c = true) : (pad3 (val3 a b c)).data = [a, b, c] := by
  have h9a := dval_le9 ha
  have h9b := dval_le9 hb
  have h9c := dval_le9 hc
  rw [pad3_digits _ (by have := val3_le999 ha hb hc; omega)]
  have h1 : val3 a b c / 100 = dval a := by unfold val3; omega
  have h2 : val3 a b c / 10 % 10 = dval b := by unfold val3; omega
  have h3 : val3 a b c % 10 = dval c := by unfold val3; omega
  rw [h1, h2, h3, ← char_eq_ofNat ha, ← char_eq_ofNat hb, ← char_eq_ofNat hc]

theorem contains_false_iff {l : List Char} {c : Char} :
    l.contains c = false ↔ c ∉ l := by
  rw [List.contains_eq_any_beq, List.any_eq_false]
  constructor
  · intro h hm
    have := h c hm
    simp at this
  · intro h x hx
    by_cases he : c = x
    · subst he
      exact absurd hx h
    · simpa using he

theorem isDig_beq_false {c d : Char} (h : isDig c = true) (hd : isDig d = false) :
    (c == d) = false :=
  beq_eq_false_iff_ne.mpr (fun he => by rw [he, hd] at h; exact Bool.noConfusion h)

theorem isDig_ne_of_not {c d : Char} (h : isDig c = true) (hd : isDig d = false) :
    c ≠ d := fun he => by rw [he, hd] at h; exact Bool.noConfusion h


theorem projectCaptures_of {c1 c2 c3 c4 : Char} {rest : List Char}
    (h1 : isDig c1 = true) (h2 : isDig c2 = true) (h3 : isDig c3 = true)
    (h4 : isDig c4 = false) (h5 : (c4 == '.') = false)
    (h6 : rest.contains '\n' = false) :
    projectCaptures (c1 :: c2 :: c3 :: c4 :: rest) = some (val3 c1 c2 c3, ⟨c4 :: rest⟩) := by
  simp only [projectCaptures, h1, h2, h3, h4, h5, h6]
  rfl

theorem projectCaptures_none_c3 {c1 c2 c3 : Char} {rest : List Char}
    (h3 : isDig c3 = false) : projectCaptures (c1 :: c2 :: c3 :: rest) = none := by
  cases rest with
  | nil => rfl
  | cons c4 r => simp [projectCaptures, h3]

theorem projectCaptures_none_c4 {c1 c2 c3 c4 : Char} {rest : List Char}
    (h4 : isDig c4 = true ∨ c4 = '.') :
    projectCaptures (c1 :: c2 :: c3 :: c4 :: rest) = none := by
  rcases h4 with h4 | h4
  · simp [projectCaptures, h4]
  · subst h4
    simp [projectCaptures]

theorem areaCaptures_of {c1 c2 c4 c5 c6 : Char} {rest : List Char}
    (h1 : isDig c1 = true) (h2 : isDig c2 = true) (h4 : isDig c4 = true)
    (h5 : isDig c5 = true) (h6 : isDig c6 = false)
    (h7 : rest.contains '\n' = false) :
    areaCaptures (c1 :: c2 :: '-' :: c4 :: c5 :: c6 :: rest)
      = some (val2 c1 c2, val2 c4 c5, ⟨c6 :: rest⟩) := by
  simp only [areaCaptures, h1, h2, h4, h5, h6, h7]
  rfl

theorem areaCaptures_none_c3 {c1 c2 c3 : Char} {rest : List Char}
    (h3 : (c3 == '-') = false) :
    areaCaptures (c1 :: c2 :: c3 :: rest) = none := by
  match rest with
  | [] => rfl
  | [_] => rfl
  | [_, _] => rfl
  | _ :: _ :: _ :: _ => simp [areaCaptures, h3]

theorem categoryCaptures_of {c1 c2 c3 : Char} {rest : List Char}
    (h1 : isDig c1 = true) (h2 : isDig c2 = true) (h3 : isDig c3 = false)
    (h4 : (c3 == '.') = false) (h5 : rest.contains '\n' = false) :
    categoryCaptures (c1 :: c2 :: c3 :: rest) = some (val2 c1 c2, ⟨c3 :: rest⟩) := by
  simp only [categoryCaptures, h1, h2, h3, h4, h5]
  rfl

theorem categoryCaptures_none_c3 {c1 c2 c3 : Char} {rest : List Char}
    (h3 : isDig c3 = true ∨ c3 = '.') :
    categoryCaptures (c1 :: c2 :: c3 :: rest) = none := by
  rcases h3 with h3 | h3
  · simp [categoryCaptures, h3]
  · subst h3
    simp [categoryCaptures]

theorem jdTail2_of {a b d e f : Char} {rest : List Char}
    (ha : isDig a = true) (hb : isDig b = true) (hd : isDig d = true)
    (he : isDig e = true) (hf : isDig f = false) :
    jdTail2 (a :: b :: '.' :: d :: e :: f :: rest)
      = some (val2 a b, val2 d e, ⟨f :: rest.takeWhile (fun ch => !(ch == '\n'))⟩) := by
  simp [jdTail2, ha, hb, hd, he, hf]

theorem jdTail2_none_head {a : Char} {rest : List Char} (h : isDig a = false) :
    jdTail2 (a :: rest) = none := by
  match rest with
  | [] => rfl
  | [_] => rfl
  | [_, _] => rfl
  | [_, _, _] => rfl
  | [_, _, _, _] => rfl
  | _ :: _ :: _ :: _ :: _ :: _ => simp [jdTail2, h]

theorem jdTail2_none_third {a b c : Char} {rest : List Char} (h : (c == '.') = false) :
    jdTail2 (a :: b :: c :: rest) = none := by
  match rest with
  | [] => rfl
  | [_] => rfl
  | [_, _] => rfl
  | _ :: _ :: _ :: _ => simp [jdTail2, h]

theorem jdTail_dot (rest : List Char) : jdTail ('.' :: rest) = jdTail2 rest := by
  simp [jdTail]

theorem jdTail_not_dot {a : Char} {rest : List Char} (h : a ≠ '.') :
    jdTail (a :: rest) = jdTail2 (a :: rest) := by
  simp [jdTail, h]

theorem isDig_ne_dot {a : Char} (h : isDig a = true) : a ≠ '.' :=
  isDig_ne_of_not h (by decide)

theorem jdLinePattern_item2 {d1 d2 i1 i2 f : Char} {t : List Char}
    (h1 : isDig d1 = true) (h2 : isDig d2 = true) (h3 : isDig i1 = true)
    (h4 : isDig i2 = true) (hf : isDig f = false) :
    jdLinePattern (d1 :: d2 :: '.' :: i1 :: i2 :: f :: t)
      = some (none, val2 d1 d2, val2 i1 i2,
              ⟨f :: t.takeWhile (fun ch => !(ch == '\n'))⟩) := by
  have hb : d1 ≠ '.' := isDig_ne_dot h1
  have hdot : isDig '.' = false := by decide
  have ht : jdTail2 (d1 :: d2 :: '.' :: i1 :: i2 :: f :: t)
      = some (val2 d1 d2, val2 i1 i2, ⟨f :: t.takeWhile (fun ch => !(ch == '\n'))⟩) :=
    jdTail2_of h1 h2 h3 h4 hf
  simp [jdLinePattern, hdot, jdTail_not_dot hb, ht]

theorem jdLinePattern_item3 {e1 e2 e3 d1 d2 i1 i2 f : Char} {t : List Char}
    (g1 : isDig e1 = true) (g2 : isDig e2 = true) (g3 : isDig e3 = true)
    (h1 : isDig d1 = true) (h2 : isDig d2 = true) (h3 : isDig i1 = true)
    (h4 : isDig i2 = true) (hf : isDig f = false) :
    jdLinePattern (e1 :: e2 :: e3 :: '.' :: d1 :: d2 :: '.' :: i1 :: i2 :: f :: t)
      = some (some (val3 e1 e2 e3), val2 d1 d2, val2 i1 i2,
              ⟨f :: t.takeWhile (fun ch => !(ch == '\n'))⟩) := by
  have ht : jdTail2 (d1 :: d2 :: '.' :: i1 :: i2 :: f :: t)
      = some (val2 d1 d2, val2 i1 i2, ⟨f :: t.takeWhile (fun ch => !(ch == '\n'))⟩) :=
    jdTail2_of h1 h2 h3 h4 hf
  simp [jdLinePattern, g1, g2, g3, jdTail_dot, ht]

theorem takeWhile_noNL {t : List Char} (h : '\n' ∉ t) :
    t.takeWhile (fun ch => !(ch == '\n')) = t := by
  induction t with
  | nil => rfl
  | cons a r ih =>
    simp only [List.mem_cons, not_or] at h
    have ha : (a == '\n') = false := beq_eq_false_iff_ne.mpr (fun he => h.1 he.symm)
    simp [List.takeWhile_cons, ha, ih h.2]

theorem nl_not_mem_takeWhile {t : List Char} :
    '\n' ∉ t.takeWhile (fun ch => !(ch == '\n')) := by
  intro hm
  have := List.mem_takeWhile_imp hm
  simp at this

theorem jdCaptures_first {l : List Char} {r : Option Nat × Nat × Nat × String}
    (h : jdLinePattern l = some r) : jdCaptures l = some r := by
  simp [jdCaptures, jdCapturesAux, h]

theorem nl_ne_of_isDig {c : Char} (h : isDig c = true) : ¬ ('\n' = c) := by
  intro he
  rw [← he] at h
  exact absurd h (by decide)

theorem projectCaptures_inv {l : List Char} {p : Nat} {nm : String}
    (h : projectCaptures l = some (p, nm)) : p ≤ 999 ∧ labelOk2 nm := by
  match l with
  | [] => simp [projectCaptures] at h
  | [_] => simp [projectCaptures] at h
  | [_, _] => simp [projectCaptures] at h
  | [_, _, _] => simp [projectCaptures] at h
  | c1 :: c2 :: c3 :: c4 :: rest =>
    simp only [projectCaptures] at h
    split at h
    · next hc =>
      simp only [Bool.and_eq_true, Bool.not_eq_true'] at hc
      obtain ⟨⟨⟨⟨⟨hd1, hd2⟩, hd3⟩, hd4⟩, hd5⟩, hd6⟩ := hc
      simp only [Option.some.injEq, Prod.mk.injEq] at h
      obtain ⟨hp, hnm⟩ := h
      subst hp hnm
      refine ⟨val3_le999 hd1 hd2 hd3, ⟨?_, ?_, ?_⟩, ?_⟩
      · simp
      · simpa [isDig] using hd4
      · exact contains_false_iff.mp hd6
      · simpa using hd5
    · exact Option.noConfusion h

theorem areaCaptures_inv {l : List Char} {a b : Nat} {nm : String}
    (h : areaCaptures l = some (a, b, nm)) : a ≤ 99 ∧ b ≤ 99 ∧ labelOk1 nm := by
  match l with
  | [] => simp [areaCaptures] at h
  | [_] => simp [areaCaptures] at h
  | [_, _] => simp [areaCaptures] at h
  | [_, _, _] => simp [areaCaptures] at h
  | [_, _, _, _] => simp [areaCaptures] at h
  | c1 :: c2 :: c3 :: c4 :: c5 :: c6 :: rest =>
    simp only [areaCaptures] at h
    split at h
    · next hc =>
      simp only [Bool.and_eq_true, Bool.not_eq_true'] at hc
      obtain ⟨⟨⟨⟨⟨⟨hd1, hd2⟩, hd3⟩, hd4⟩, hd5⟩, hd6⟩, hd7⟩ := hc
      simp only [Option.some.injEq, Prod.mk.injEq] at h
      obtain ⟨ha, hb, hnm⟩ := h
      subst ha hb hnm
      refine ⟨val2_le99 hd1 hd2, val2_le99 hd4 hd5, ?_, ?_, ?_⟩
      · simp
      · simpa [isDig] using hd6
      · exact contains_false_iff.mp hd7
    · exact Option.noConfusion h

theorem categoryCaptures_inv {l : List Char} {cv : Nat} {nm : String}
    (h : categoryCaptures l = some (cv, nm)) : cv ≤ 99 ∧ labelOk2 nm := by
  match l with
  | [] => simp [categoryCaptures] at h
  | [_] => simp [categoryCaptures] at h
  | c1 :: c2 :: c3 :: rest =>
    simp only [categoryCaptures] at h
    split at h
    · next hc =>
      simp only [Bool.and_eq_true, Bool.not_eq_true'] at hc
      obtain ⟨⟨⟨⟨hd1, hd2⟩, hd3⟩, hd4⟩, hd5⟩ := hc
      simp only [Option.some.injEq, Prod.mk.injEq] at h
      obtain ⟨hcv, hnm⟩ := h
      subst hcv hnm
      refine ⟨val2_le99 hd1 hd2, ⟨?_, ?_, ?_⟩, ?_⟩
      · simp
      · simpa [isDig] using hd3
      · exact contains_false_iff.mp hd5
      · simpa using hd4
    · exact Option.noConfusion h

theorem categoryCaptures_recompose {l : List Char} {cv : Nat} {nm : String}
    (h : categoryCaptures l = some (cv, nm)) : (pad2 cv).data ++ nm.data = l := by
  match l with
  | [] => simp [categoryCaptures] at h
  | [_] => simp [categoryCaptures] at h
  | c1 :: c2 :: c3 :: rest =>
    simp only [categoryCaptures] at h
    split at h
    · next hc =>
      simp only [Bool.and_eq_true, Bool.not_eq_true'] at hc
      obtain ⟨⟨⟨⟨hd1, hd2⟩, hd3⟩, hd4⟩, hd5⟩ := hc
      simp only [Option.some.injEq, Prod.mk.injEq] at h
      obtain ⟨hcv, hnm⟩ := h
      subst hcv hnm
      rw [pad2_val2 hd1 hd2]
      rfl
    · exact Option.noConfusion h

theorem jdTail2_inv {l : List Char} {cv iv : Nat} {nm : String}
    (h : jdTail2 l = some (cv, iv, nm)) :
    cv ≤ 99 ∧ iv ≤ 99 ∧ labelOk1 nm := by
  match l with
  | [] => simp [jdTail2] at h
  | [_] => simp [jdTail2] at h
  | [_, _] => simp [jdTail2] at h
  | [_, _, _] => simp [jdTail2] at h
  | [_, _, _, _] => simp [jdTail2] at h
  | a :: b :: c :: d :: e :: f :: rest =>
    simp only [jdTail2] at h
    split at h
    · next hc =>
      simp only [Bool.and_eq_true, Bool.not_eq_true'] at hc
      obtain ⟨⟨⟨⟨⟨hd1, hd2⟩, hd3⟩, hd4⟩, hd5⟩, hd6⟩ := hc
      simp only [Option.some.injEq, Prod.mk.injEq] at h
      obtain ⟨hcv, hiv, hnm⟩ := h
      subst hcv hiv hnm
      refine ⟨val2_le99 hd1 hd2, val2_le99 hd4 hd5, by simp, by simpa [isDig] using hd6,
        nl_not_mem_takeWhile⟩
    · exact Option.noConfusion h

theorem jdTail_inv {l : List Char} {cv iv : Nat} {nm : String}
    (h : jdTail l = some (cv, iv, nm)) :
    cv ≤ 99 ∧ iv ≤ 99 ∧ labelOk1 nm := by
  match l with
  | [] => simp [jdTail, jdTail2] at h
  | a :: rest =>
    simp only [jdTail] at h
    by_cases ha : a = '.'
    · rw [if_pos ha] at h
      exact jdTail2_inv h
    · rw [if_neg ha] at h
      exact jdTail2_inv h

theorem jdLinePattern_inv {l : List Char} {jp : Option Nat} {jc ji : Nat} {jn : String}
    (h : jdLinePattern l = some (jp, jc, ji, jn)) :
    (∀ q, jp = some q → q ≤ 999) ∧ jc ≤ 99 ∧ ji ≤ 99 ∧ labelOk1 jn := by
  match l with
  | [] => simp [jdLinePattern, jdTail, jdTail2] at h
  | [a] => simp [jdLinePattern, jdTail, jdTail2] at h
  | [a, b] => simp [jdLinePattern, jdTail, jdTail2] at h
  | c1 :: c2 :: c3 :: rest1 =>
    simp only [jdLinePattern] at h
    split at h
    · next hcond =>
      simp only [Bool.and_eq_true] at hcond
      obtain ⟨⟨hg1, hg2⟩, hg3⟩ := hcond
      revert h
      cases hjt : jdTail rest1 with
      | some v =>
        obtain ⟨cc, ii, nmm⟩ := v
        intro h
        simp only [Option.some.injEq, Prod.mk.injEq] at h
        obtain ⟨hjp, hjc, hji, hjn⟩ := h
        subst hjp hjc hji hjn
        obtain ⟨t1, t2, t3⟩ := jdTail_inv hjt
        refine ⟨?_, t1, t2, t3⟩
        intro q hq
        obtain rfl : val3 c1 c2 c3 = q := Option.some.injEq .. ▸ hq
        exact val3_le999 hg1 hg2 hg3
      | none =>
        intro h
        revert h
        cases hjt2 : jdTail (c1 :: c2 :: c3 :: rest1) with
        | some v =>
          obtain ⟨cc, ii, nmm⟩ := v
          intro h
          simp only [Option.some.injEq, Prod.mk.injEq] at h
          obtain ⟨hjp, hjc, hji, hjn⟩ := h
          subst hjp hjc hji hjn
          obtain ⟨t1, t2, t3⟩ := jdTail_inv hjt2
          exact ⟨fun q hq => Option.noConfusion hq, t1, t2, t3⟩
        | none =>
          intro h
          exact Option.noConfusion h
    · next hcond =>
      revert h
      cases hjt2 : jdTail (c1 :: c2 :: c3 :: rest1) with
      | some v =>
        obtain ⟨cc, ii, nmm⟩ := v
        intro h
        simp only [Option.some.injEq, Prod.mk.injEq] at h
        obtain ⟨hjp, hjc, hji, hjn⟩ := h
        subst hjp hjc hji hjn
        obtain ⟨t1, t2, t3⟩ := jdTail_inv hjt2
        exact ⟨fun q hq => Option.noConfusion hq, t1, t2, t3⟩
      | none =>
        intro h
        exact Option.noConfusion h

theorem jdCapturesAux_some : ∀ {lines : List (List Char)} {r},
    jdCapturesAux lines = some r → ∃ line ∈ lines, jdLinePattern line = some r := by
  intro lines
  induction lines with
  | nil =>
    intro r h
    exact Option.noConfusion h
  | cons line rest ih =>
    intro r h
    unfold jdCapturesAux at h
    revert h
    cases hp : jdLinePattern line with
    | some v =>
      intro h
      obtain rfl : v = r := Option.some.injEq .. ▸ h
      exact ⟨line, List.mem_cons_self line rest, hp⟩
    | none =>
      intro h
      obtain ⟨l2, hl2, hp2⟩ := ih h
      exact ⟨l2, List.mem_cons_of_mem _ hl2, hp2⟩

theorem jdCaptures_inv {l : List Char} {jp : Option Nat} {jc ji : Nat} {jn : String}
    (h : jdCaptures l = some (jp, jc, ji, jn)) :
    (∀ q, jp = some q → q ≤ 999) ∧ jc ≤ 99 ∧ ji ≤ 99 ∧ labelOk1 jn := by
  obtain ⟨line, _, hp⟩ := jdCapturesAux_some h
  exact jdLinePattern_inv hp

theorem scanInv_init : ScanInv {} := by
  simp [ScanInv]

theorem scanInv_step {s : PathScan} (comp : String) (hs : ScanInv s) :
    ScanInv (scanComp s comp) := by
  obtain ⟨i1, i2, i3, i4, i5, i6, i7, i8, i9, i10, i11, i12⟩ := hs
  simp only [scanComp]
  cases hp : projectCaptures comp.data with
  | some pv =>
    obtain ⟨p, pnm⟩ := pv
    cases hA : areaCaptures comp.data with
    | some av =>
      obtain ⟨a, b, anm⟩ := av
      cases hc : categoryCaptures comp.data with
      | some cv2 =>
        obtain ⟨cv, cnm⟩ := cv2
        cases hj : jdCaptures comp.data with
        | some jv =>
          obtain ⟨jjp, jjc, jji, jjn⟩ := jv
          dsimp only
          refine ⟨(by simp),
            (by intro q hq; simp only [Option.some.injEq] at hq; subst hq; exact (projectCaptures_inv hp).1),
            (by intro nm hnm; simp only [Option.some.injEq] at hnm; subst hnm; exact (projectCaptures_inv hp).2),
            (by simp),
            (by intro a2 b2 hq; simp only [Option.some.injEq, Prod.mk.injEq] at hq; obtain ⟨rfl, rfl⟩ := hq; exact ⟨(areaCaptures_inv hA).1, (areaCaptures_inv hA).2.1⟩),
            (by intro nm hnm; simp only [Option.some.injEq] at hnm; subst hnm; exact (areaCaptures_inv hA).2.2),
            (by simp),
            (by intro q hq; simp only [Option.some.injEq] at hq; subst hq; exact (categoryCaptures_inv hc).1),
            (by intro nm hnm; simp only [Option.some.injEq] at hnm; subst hnm; exact (categoryCaptures_inv hc).2),
            (by intro iv hq; simp only [Option.some.injEq] at hq; subst hq; exact (jdCaptures_inv hj).2.2.1),
            ((jdCaptures_inv hj).1),
            (by intro nm hnm; simp only [Option.some.injEq] at hnm; subst hnm; exact (jdCaptures_inv hj).2.2.2)⟩
        | none =>
          dsimp only
          refine ⟨(by simp),
            (by intro q hq; simp only [Option.some.injEq] at hq; subst hq; exact (projectCaptures_inv hp).1),
            (by intro nm hnm; simp only [Option.some.injEq] at hnm; subst hnm; exact (projectCaptures_inv hp).2),
            (by simp),
            (by intro a2 b2 hq; simp only [Option.some.injEq, Prod.mk.injEq] at hq; obtain ⟨rfl, rfl⟩ := hq; exact ⟨(areaCaptures_inv hA).1, (areaCaptures_inv hA).2.1⟩),
            (by intro nm hnm; simp only [Option.some.injEq] at hnm; subst hnm; exact (areaCaptures_inv hA).2.2),
            (by simp),
            (by intro q hq; simp only [Option.some.injEq] at hq; subst hq; exact (categoryCaptures_inv hc).1),
            (by intro nm hnm; simp only [Option.some.injEq] at hnm; subst hnm; exact (categoryCaptures_inv hc).2),
            i10,
            i11,
            i12⟩
      | none =>
        cases hj : jdCaptures comp.data with
        | some jv =>
          obtain ⟨jjp, jjc, jji, jjn⟩ := jv
          dsimp only
          refine ⟨(by simp),
            (by intro q hq; simp only [Option.some.injEq] at hq; subst hq; exact (projectCaptures_inv hp).1),
            (by intro nm hnm; simp only [Option.some.injEq] at hnm; subst hnm; exact (projectCaptures_inv hp).2),
            (by simp),
            (by intro a2 b2 hq; simp only [Option.some.injEq, Prod.mk.injEq] at hq; obtain ⟨rfl, rfl⟩ := hq; exact ⟨(areaCaptures_inv hA).1, (areaCaptures_inv hA).2.1⟩),
            (by intro nm hnm; simp only [Option.some.injEq] at hnm; subst hnm; exact (areaCaptures_inv hA).2.2),
            i7,
            i8,
            i9,
            (by intro iv hq; simp only [Option.some.injEq] at hq; subst hq; exact (jdCaptures_inv hj).2.2.1),
            ((jdCaptures_inv hj).1),
            (by intro nm hnm; simp only [Option.some.injEq] at hnm; subst hnm; exact (jdCaptures_inv hj).2.2.2)⟩
        | none =>
          dsimp only
          refine ⟨(by simp),
            (by intro q hq; simp only [Option.some.injEq] at hq; subst hq; exact (projectCaptures_inv hp).1),
            (by intro nm hnm; simp only [Option.some.injEq] at hnm; subst hnm; exact (projectCaptures_inv hp).2),
            (by simp),
            (by intro a2 b2 hq; simp only [Option.some.injEq, Prod.mk.injEq] at hq; obtain ⟨rfl, rfl⟩ := hq; exact ⟨(areaCaptures_inv hA).1, (areaCaptures_inv hA).2.1⟩),
            (by intro nm hnm; simp only [Option.some.injEq] at hnm; subst hnm; exact (areaCaptures_inv hA).2.2),
            i7,
            i8,
            i9,
            i10,
            i11,
            i12⟩
    | none =>
      cases hc : categoryCaptures comp.data with
      | some cv2 =>
        obtain ⟨cv, cnm⟩ := cv2
        cases hj : jdCaptures comp.data with
        | some jv =>
          obtain ⟨jjp, jjc, jji, jjn⟩ := jv
          dsimp only
          refine ⟨(by simp),
            (by intro q hq; simp only [Option.some.injEq] at hq; subst hq; exact (projectCaptures_inv hp).1),
            (by intro nm hnm; simp only [Option.some.injEq] at hnm; subst hnm; exact (projectCaptures_inv hp).2),
            i4,
            i5,
            i6,
            (by simp),
            (by intro q hq; simp only [Option.some.injEq] at hq; subst hq; exact (categoryCaptures_inv hc).1),
            (by intro nm hnm; simp only [Option.some.injEq] at hnm; subst hnm; exact (categoryCaptures_inv hc).2),
            (by intro iv hq; simp only [Option.some.injEq] at hq; subst hq; exact (jdCaptures_inv hj).2.2.1),
            ((jdCaptures_inv hj).1),
            (by intro nm hnm; simp only [Option.some.injEq] at hnm; subst hnm; exact (jdCaptures_inv hj).2.2.2)⟩
        | none =>
          dsimp only
          refine ⟨(by simp),
            (by intro q hq; simp only [Option.some.injEq] at hq; subst hq; exact (projectCaptures_inv hp).1),
            (by intro nm hnm; simp only [Option.some.injEq] at hnm; subst hnm; exact (projectCaptures_inv hp).2),
            i4,
            i5,
            i6,
            (by simp),
            (by intro q hq; simp only [Option.some.injEq] at hq; subst hq; exact (categoryCaptures_inv hc).1),
            (by intro nm hnm; simp only [Option.some.injEq] at hnm; subst hnm; exact (categoryCaptures_inv hc).2),
            i10,
            i11,
            i12⟩
      | none =>
        cases hj : jdCaptures comp.data with
        | some jv =>
          obtain ⟨jjp, jjc, jji, jjn⟩ := jv
          dsimp only
          refine ⟨(by simp),
            (by intro q hq; simp only [Option.some.injEq] at hq; subst hq; exact (projectCaptures_inv hp).1),
            (by intro nm hnm; simp only [Option.some.injEq] at hnm; subst hnm; exact (projectCaptures_inv hp).2),
            i4,
            i5,
            i6,
            i7,
            i8,
            i9,
            (by intro iv hq; simp only [Option.some.injEq] at hq; subst hq; exact (jdCaptures_inv hj).2.2.1),
            ((jdCaptures_inv hj).1),
            (by intro nm hnm; simp only [Option.some.injEq] at hnm; subst hnm; exact (jdCaptures_inv hj).2.2.2)⟩
        | none =>
          dsimp only
          refine ⟨(by simp),
            (by intro q hq; simp only [Option.some.injEq] at hq; subst hq; exact (projectCaptures_inv hp).1),
            (by intro nm hnm; simp only [Option.some.injEq] at hnm; subst hnm; exact (projectCaptures_inv hp).2),
            i4,
            i5,
            i6,
            i7,
            i8,
            i9,
            i10,
            i11,
            i12⟩
  | none =>
    cases hA : areaCaptures comp.data with
    | some av =>
      obtain ⟨a, b, anm⟩ := av
      cases hc : categoryCaptures comp.data with
      | some cv2 =>
        obtain ⟨cv, cnm⟩ := cv2
        cases hj : jdCaptures comp.data with
        | some jv =>
          obtain ⟨jjp, jjc, jji, jjn⟩ := jv
          dsimp only
          refine ⟨i1,
            i2,
            i3,
            (by simp),
            (by intro a2 b2 hq; simp only [Option.some.injEq, Prod.mk.injEq] at hq; obtain ⟨rfl, rfl⟩ := hq; exact ⟨(areaCaptures_inv hA).1, (areaCaptures_inv hA).2.1⟩),
            (by intro nm hnm; simp only [Option.some.injEq] at hnm; subst hnm; exact (areaCaptures_inv hA).2.2),
            (by simp),
            (by intro q hq; simp only [Option.some.injEq] at hq; subst hq; exact (categoryCaptures_inv hc).1),
            (by intro nm hnm; simp only [Option.some.injEq] at hnm; subst hnm; exact (categoryCaptures_inv hc).2),
            (by intro iv hq; simp only [Option.some.injEq] at hq; subst hq; exact (jdCaptures_inv hj).2.2.1),
            ((jdCaptures_inv hj).1),
            (by intro nm hnm; simp only [Option.some.injEq] at hnm; subst hnm; exact (jdCaptures_inv hj).2.2.2)⟩
        | none =>
          dsimp only
          refine ⟨i1,
            i2,
            i3,
            (by simp),
            (by intro a2 b2 hq; simp only [Option.some.injEq, Prod.mk.injEq] at hq; obtain ⟨rfl, rfl⟩ := hq; exact ⟨(areaCaptures_inv hA).1, (areaCaptures_inv hA).2.1⟩),
            (by intro nm hnm; simp only [Option.some.injEq] at hnm; subst hnm; exact (areaCaptures_inv hA).2.2),
            (by simp),
            (by intro q hq; simp only [Option.some.injEq] at hq; subst hq; exact (categoryCaptures_inv hc).1),
            (by intro nm hnm; simp only [Option.some.injEq] at hnm; subst hnm; exact (categoryCaptures_inv hc).2),
            i10,
            i11,
            i12⟩
      | none =>
        cases hj : jdCaptures comp.data with
        | some jv =>
          obtain ⟨jjp, jjc, jji, jjn⟩ := jv
          dsimp only
          refine ⟨i1,
            i2,
            i3,
            (by simp),
            (by intro a2 b2 hq; simp only [Option.some.injEq, Prod.mk.injEq] at hq; obtain ⟨rfl, rfl⟩ := hq; exact ⟨(areaCaptures_inv hA).1, (areaCaptures_inv hA).2.1⟩),
            (by intro nm hnm; simp only [Option.some.injEq] at hnm; subst hnm; exact (areaCaptures_inv hA).2.2),
            i7,
            i8,
            i9,
            (by intro iv hq; simp only [Option.some.injEq] at hq; subst hq; exact (jdCaptures_inv hj).2.2.1),
            ((jdCaptures_inv hj).1),
            (by intro nm hnm; simp only [Option.some.injEq] at hnm; subst hnm; exact (jdCaptures_inv hj).2.2.2)⟩
        | none =>
          dsimp only
          refine ⟨i1,
            i2,
            i3,
            (by simp),
            (by intro a2 b2 hq; simp only [Option.some.injEq, Prod.mk.injEq] at hq; obtain ⟨rfl, rfl⟩ := hq; exact ⟨(areaCaptures_inv hA).1, (areaCaptures_inv hA).2.1⟩),
            (by intro nm hnm; simp only [Option.some.injEq] at hnm; subst hnm; exact (areaCaptures_inv hA).2.2),
            i7,
            i8,
            i9,
            i10,
            i11,
            i12⟩
    | none =>
      cases hc : categoryCaptures comp.data with
      | some cv2 =>
        obtain ⟨cv, cnm⟩ := cv2
        cases hj : jdCaptures comp.data with
        | some jv =>
          obtain ⟨jjp, jjc, jji, jjn⟩ := jv
          dsimp only
          refine ⟨i1,
            i2,
            i3,
            i4,
            i5,
            i6,
            (by simp),
            (by intro q hq; simp only [Option.some.injEq] at hq; subst hq; exact (categoryCaptures_inv hc).1),
            (by intro nm hnm; simp only [Option.some.injEq] at hnm; subst hnm; exact (categoryCaptures_inv hc).2),
            (by intro iv hq; simp only [Option.some.injEq] at hq; subst hq; exact (jdCaptures_inv hj).2.2.1),
            ((jdCaptures_inv hj).1),
            (by intro nm hnm; simp only [Option.some.injEq] at hnm; subst hnm; exact (jdCaptures_inv hj).2.2.2)⟩
        | none =>
          dsimp only
          refine ⟨i1,
            i2,
            i3,
            i4,
            i5,
            i6,
            (by simp),
            (by intro q hq; simp only [Option.some.injEq] at hq; subst hq; exact (categoryCaptures_inv hc).1),
            (by intro nm hnm; simp only [Option.some.injEq] at hnm; subst hnm; exact (categoryCaptures_inv hc).2),
            i10,
            i11,
            i12⟩
      | none =>
        cases hj : jdCaptures comp.data with
        | some jv =>
          obtain ⟨jjp, jjc, jji, jjn⟩ := jv
          dsimp only
          refine ⟨i1,
            i2,
            i3,
            i4,
            i5,
            i6,
            i7,
            i8,
            i9,
            (by intro iv hq; simp only [Option.some.injEq] at hq; subst hq; exact (jdCaptures_inv hj).2.2.1),
            ((jdCaptures_inv hj).1),
            (by intro nm hnm; simp only [Option.some.injEq] at hnm; subst hnm; exact (jdCaptures_inv hj).2.2.2)⟩
        | none =>
          dsimp only
          refine ⟨i1,
            i2,
            i3,
            i4,
            i5,
            i6,
            i7,
            i8,
            i9,
            i10,
            i11,
            i12⟩

theorem scanInv_fold (comps : List String) : ∀ s : PathScan, ScanInv s →
    ScanInv (comps.foldl scanComp s) := by
  induction comps with
  | nil => intro s h; exact h
  | cons c t ih =>
    intro s h
    exact ih _ (scanInv_step c h)


theorem tryFromPath_ok_state {comps : List String} {x : JdNumber} {s : PathScan}
    (hfold : comps.foldl scanComp {} = s)
    (h : tryFromPath comps = .ok x) :
    s.project = x.project ∧ s.jd_project = x.project ∧ s.project_name = x.project_label ∧
    s.category = some x.category ∧ s.jd_category = some x.category ∧
    s.category_name = some x.category_label ∧
    (∃ a1 a2, s.area = some (a1, a2) ∧ a1 % 10 = 0 ∧ a2 = a1 + 9) ∧
    s.area_name = some x.area_label ∧
    s.jd_id = some x.id ∧ s.jd_name = some x.label ∧
    x.project_area_label = none ∧ x.path = .path comps ∧
    x.category ≤ 99 ∧ x.id ≤ 99 := by
  unfold tryFromPath at h
  rw [hfold] at h
  dsimp only at h
  split at h
  · exact Except.noConfusion h
  · split at h
    · exact Except.noConfusion h
    · next hproj hcat =>
      rw [not_ne_iff] at hproj hcat
      revert h
      split
      · intro h; exact Except.noConfusion h
      · next a1 a2 harea =>
        intro h
        split at h
        · exact Except.noConfusion h
        · next h10 =>
          split at h
          · exact Except.noConfusion h
          · next h9 =>
            revert h
            split
            · intro h; exact Except.noConfusion h
            · next an hanm =>
              split
              · intro h; exact Except.noConfusion h
              · next cn hcnm =>
                split
                · intro h; exact Except.noConfusion h
                · next cat hcatv =>
                  split
                  · intro h; exact Except.noConfusion h
                  · next idv hidv =>
                    split
                    · intro h; exact Except.noConfusion h
                    · next jn hjn =>
                      intro h
                      revert h
                      split
                      · next jd hnew =>
                        intro h
                        simp only [Except.ok.injEq] at h
                        subst h
                        unfold JdNumber.new at hnew
                        split at hnew
                        · exact Except.noConfusion hnew
                        · next hbound =>
                          push_neg at hbound
                          revert hnew
                          split
                          · next pval hpv =>
                            split
                            · intro hnew; exact Except.noConfusion hnew
                            · intro hnew
                              simp only [Except.ok.injEq] at hnew
                              subst hnew
                              exact ⟨hpv, hproj.symm.trans hpv, rfl, hcatv,
                                hcat.symm.trans hcatv, hcnm,
                                ⟨a1, a2, harea, by omega, by omega⟩, hanm, hidv, hjn,
                                rfl, rfl, by dsimp only; omega, by dsimp only; omega⟩
                          · next hpv =>
                            intro hnew
                            simp only [Except.ok.injEq] at hnew
                            subst hnew
                            exact ⟨hpv, hproj.symm.trans hpv, rfl, hcatv,
                              hcat.symm.trans hcatv, hcnm,
                              ⟨a1, a2, harea, by omega, by omega⟩, hanm, hidv, hjn,
                              rfl, rfl, by dsimp only; omega, by dsimp only; omega⟩
                      · intro h; exact Except.noConfusion h

theorem scanComp_project_some {comp : String} {p : Nat} {pnm : String} (s : PathScan)
    (hp : projectCaptures comp.data = some (p, pnm)) :
    (scanComp s comp).project = some p ∧ (scanComp s comp).project_name = some pnm := by
  rcases hA : areaCaptures comp.data with _ | ⟨a, b, anm⟩ <;>
    rcases hc : categoryCaptures comp.data with _ | ⟨cv, cnm⟩ <;>
      rcases hj : jdCaptures comp.data with _ | ⟨jp2, jc2, ji2, jn2⟩ <;>
        simp [scanComp, hp, hA, hc, hj]

theorem scanComp_project_keep {comp : String} (s : PathScan)
    (hp : projectCaptures comp.data = none) :
    (scanComp s comp).project = s.project
      ∧ (scanComp s comp).project_name = s.project_name := by
  rcases hA : areaCaptures comp.data with _ | ⟨a, b, anm⟩ <;>
    rcases hc : categoryCaptures comp.data with _ | ⟨cv, cnm⟩ <;>
      rcases hj : jdCaptures comp.data with _ | ⟨jp2, jc2, ji2, jn2⟩ <;>
        simp [scanComp, hp, hA, hc, hj]

theorem scanComp_area_some {comp : String} {a b : Nat} {anm : String} (s : PathScan)
    (hA : areaCaptures comp.data = some (a, b, anm)) :
    (scanComp s comp).area = some (a, b) ∧ (scanComp s comp).area_name = some anm := by
  rcases hp : projectCaptures comp.data with _ | ⟨p2, pnm2⟩ <;>
    rcases hc : categoryCaptures comp.data with _ | ⟨cv, cnm⟩ <;>
      rcases hj : jdCaptures comp.data with _ | ⟨jp2, jc2, ji2, jn2⟩ <;>
        simp [scanComp, hp, hA, hc, hj]

theorem scanComp_area_keep {comp : String} (s : PathScan)
    (hA : areaCaptures comp.data = none) :
    (scanComp s comp).area = s.area ∧ (scanComp s comp).area_name = s.area_name := by
  rcases hp : projectCaptures comp.data with _ | ⟨p2, pnm2⟩ <;>
    rcases hc : categoryCaptures comp.data with _ | ⟨cv, cnm⟩ <;>
      rcases hj : jdCaptures comp.data with _ | ⟨jp2, jc2, ji2, jn2⟩ <;>
        simp [scanComp, hp, hA, hc, hj]

theorem scanComp_category_some {comp : String} {cv : Nat} {cnm : String} (s : PathScan)
    (hc : categoryCaptures comp.data = some (cv, cnm)) :
    (scanComp s comp).category = some cv
      ∧ (scanComp s comp).category_name = some cnm := by
  rcases hp : projectCaptures comp.data with _ | ⟨p2, pnm2⟩ <;>
    rcases hA : areaCaptures comp.data with _ | ⟨a, b, anm⟩ <;>
      rcases hj : jdCaptures comp.data with _ | ⟨jp2, jc2, ji2, jn2⟩ <;>
        simp [scanComp, hp, hA, hc, hj]

theorem scanComp_category_keep {comp : String} (s : PathScan)
    (hc : categoryCaptures comp.data = none) :
    (scanComp s comp).category = s.category
      ∧ (scanComp s comp).category_name = s.category_name := by
  rcases hp : projectCaptures comp.data with _ | ⟨p2, pnm2⟩ <;>
    rcases hA : areaCaptures comp.data with _ | ⟨a, b, anm⟩ <;>
      rcases hj : jdCaptures comp.data with _ | ⟨jp2, jc2, ji2, jn2⟩ <;>
        simp [scanComp, hp, hA, hc, hj]

theorem scanComp_jd_some {comp : String} {jp : Option Nat} {jc ji : Nat} {jn : String}
    (s : PathScan) (hj : jdCaptures comp.data = some (jp, jc, ji, jn)) :
    (scanComp s comp).jd_project = jp ∧ (scanComp s comp).jd_category = some jc ∧
    (scanComp s comp).jd_id = some ji ∧ (scanComp s comp).jd_name = some jn := by
  rcases hp : projectCaptures comp.data with _ | ⟨p2, pnm2⟩ <;>
    rcases hA : areaCaptures comp.data with _ | ⟨a, b, anm⟩ <;>
      rcases hc : categoryCaptures comp.data with _ | ⟨cv, cnm⟩ <;>
        simp [scanComp, hp, hA, hc, hj]

theorem val2_zero_mod {c : Char} : val2 c '0' % 10 = 0 := by
  have h0 : dval '0' = 0 := by decide
  unfold val2
  omega

theorem val2_nine_eq {c : Char} : val2 c '9' = val2 c '0' + 9 := by
  have h0 : dval '0' = 0 := by decide
  have h9 : dval '9' = 9 := by decide
  unfold val2
  omega


theorem roundtrip_noproj {x : JdNumber}
    (hproj : x.project = none) (hpl : x.project_label = none)
    (hcat : x.category ≤ 99) (hid : x.id ≤ 99)
    (han : labelOk1 x.area_label) (hcn : labelOk2 x.category_label)
    (hjn : labelOk1 x.label)
    (hnc : areaCaptures ((pad2 x.category).data ++ x.category_label.data) = none) :
    tryFromPath (get_relative_path x)
      = .ok ⟨none, none, none, x.category, x.id, x.label, x.area_label, x.category_label,
             .path (get_relative_path x)⟩ := by
  have hcomps : get_relative_path x = [get_area x, pad2 x.category ++ x.category_label,
      pad2 x.category ++ "." ++ pad2 x.id ++ x.label] := by
    simp [get_relative_path, hproj, hpl]
  obtain ⟨d1, d2, hd, hd1, hd2, hdv⟩ := pad2_spec hcat
  obtain ⟨e1, e2, he, he1, he2, hev⟩ := pad2_spec hid
  have hch : isDig ((Nat.repr x.category).data.headD '0') = true :=
    repr_head_digit x.category (by omega)
  obtain ⟨hane, ha0d, hannl⟩ := han
  obtain ⟨⟨hcne, hq0d, hcnnl⟩, hqd0⟩ := hcn
  obtain ⟨hjne, hf0d, hjnnl⟩ := hjn
  rcases hanl : x.area_label.data with _ | ⟨a0, arest⟩
  · exact absurd hanl hane
  rcases hcnl : x.category_label.data with _ | ⟨q, t⟩
  · exact absurd hcnl hcne
  rcases hjnl : x.label.data with _ | ⟨f, ft⟩
  · exact absurd hjnl hjne
  rw [hanl] at ha0d hannl
  rw [hcnl] at hq0d hcnnl
  rw [hjnl] at hf0d hjnnl
  simp only [List.tail_cons] at hannl hcnnl hjnnl
  have ha0 : isDig a0 = false := ha0d
  have hq : isDig q = false := hq0d
  have hqd : q ≠ '.' := by rw [hcnl] at hqd0; exact hqd0
  have hf : isDig f = false := hf0d
  have hanl2 : (⟨a0 :: arest⟩ : String) = x.area_label := by rw [← hanl]
  have hcnl2 : (⟨q :: t⟩ : String) = x.category_label := by rw [← hcnl]
  have hjnl2 : (⟨f :: ft⟩ : String) = x.label := by rw [← hjnl]
  have hCA : (get_area x).data = (Nat.repr x.category).data.headD '0' :: '0' :: '-' ::
      (Nat.repr x.category).data.headD '0' :: '9' :: (a0 :: arest) := by
    rw [← hanl]
    rfl
  have hCC : (pad2 x.category ++ x.category_label).data = d1 :: d2 :: q :: t := by
    rw [String.data_append, hd, hcnl]
    rfl
  have hCI : (pad2 x.category ++ "." ++ pad2 x.id ++ x.label).data
      = d1 :: d2 :: '.' :: e1 :: e2 :: f :: ft := by
    rw [String.data_append, String.data_append, String.data_append, hd, he, hjnl]
    rfl
  have hA_p : projectCaptures (get_area x).data = none := by
    rw [hCA]
    exact projectCaptures_none_c3 (by decide)
  have hA_a : areaCaptures (get_area x).data
      = some (val2 ((Nat.repr x.category).data.headD '0') '0',
              val2 ((Nat.repr x.category).data.headD '0') '9', x.area_label) := by
    rw [hCA, ← hanl2]
    exact areaCaptures_of hch (by decide) hch (by decide) ha0
      (contains_false_iff.mpr hannl)
  have hC_p : projectCaptures (pad2 x.category ++ x.category_label).data = none := by
    rw [hCC]
    exact projectCaptures_none_c3 hq
  have hC_a : areaCaptures (pad2 x.category ++ x.category_label).data = none := by
    rw [String.data_append]
    exact hnc
  have hC_c : categoryCaptures (pad2 x.category ++ x.category_label).data
      = some (x.category, x.category_label) := by
    rw [hCC, ← hdv, ← hcnl2]
    exact categoryCaptures_of hd1 hd2 hq (beq_eq_false_iff_ne.mpr hqd)
      (contains_false_iff.mpr hcnnl)
  have hI_p : projectCaptures (pad2 x.category ++ "." ++ pad2 x.id ++ x.label).data
      = none := by
    rw [hCI]
    exact projectCaptures_none_c3 (by decide)
  have hI_a : areaCaptures (pad2 x.category ++ "." ++ pad2 x.id ++ x.label).data
      = none := by
    rw [hCI]
    exact areaCaptures_none_c3 (by decide)
  have hI_c : categoryCaptures (pad2 x.category ++ "." ++ pad2 x.id ++ x.label).data
      = none := by
    rw [hCI]
    exact categoryCaptures_none_c3 (Or.inr rfl)
  have hI_j : jdCaptures (pad2 x.category ++ "." ++ pad2 x.id ++ x.label).data
      = some (none, x.category, x.id, x.label) := by
    rw [hCI]
    apply jdCaptures_first
    rw [jdLinePattern_item2 hd1 hd2 he1 he2 hf, takeWhile_noNL hjnnl, hdv, hev, hjnl2]
  have hfold : [get_area x, pad2 x.category ++ x.category_label,
      pad2 x.category ++ "." ++ pad2 x.id ++ x.label].foldl scanComp {}
      = scanComp (scanComp (scanComp {} (get_area x))
          (pad2 x.category ++ x.category_label))
          (pad2 x.category ++ "." ++ pad2 x.id ++ x.label) := rfl
  have hFp : (scanComp (scanComp (scanComp {} (get_area x))
      (pad2 x.category ++ x.category_label))
      (pad2 x.category ++ "." ++ pad2 x.id ++ x.label)).project = none := by
    rw [(scanComp_project_keep _ hI_p).1, (scanComp_project_keep _ hC_p).1,
      (scanComp_project_keep _ hA_p).1]
  have hFpn : (scanComp (scanComp (scanComp {} (get_area x))
      (pad2 x.category ++ x.category_label))
      (pad2 x.category ++ "." ++ pad2 x.id ++ x.label)).project_name = none := by
    rw [(scanComp_project_keep _ hI_p).2, (scanComp_project_keep _ hC_p).2,
      (scanComp_project_keep _ hA_p).2]
  have hFa : (scanComp (scanComp (scanComp {} (get_area x))
      (pad2 x.category ++ x.category_label))
      (pad2 x.category ++ "." ++ pad2 x.id ++ x.label)).area
      = some (val2 ((Nat.repr x.category).data.headD '0') '0',
              val2 ((Nat.repr x.category).data.headD '0') '9') := by
    rw [(scanComp_area_keep _ hI_a).1, (scanComp_area_keep _ hC_a).1,
      (scanComp_area_some _ hA_a).1]
  have hFan : (scanComp (scanComp (scanComp {} (get_area x))
      (pad2 x.category ++ x.category_label))
      (pad2 x.category ++ "." ++ pad2 x.id ++ x.label)).area_name
      = some x.area_label := by
    rw [(scanComp_area_keep _ hI_a).2, (scanComp_area_keep _ hC_a).2,
      (scanComp_area_some _ hA_a).2]
  have hFc : (scanComp (scanComp (scanComp {} (get_area x))
      (pad2 x.category ++ x.category_label))
      (pad2 x.category ++ "." ++ pad2 x.id ++ x.label)).category
      = some x.category := by
    rw [(scanComp_category_keep _ hI_c).1, (scanComp_category_some _ hC_c).1]
  have hFcn : (scanComp (scanComp (scanComp {} (get_area x))
      (pad2 x.category ++ x.category_label))
      (pad2 x.category ++ "." ++ pad2 x.id ++ x.label)).category_name
      = some x.category_label := by
    rw [(scanComp_category_keep _ hI_c).2, (scanComp_category_some _ hC_c).2]
  obtain ⟨hFjp, hFjc, hFji, hFjn⟩ := scanComp_jd_some
    (scanComp (scanComp {} (get_area x)) (pad2 x.category ++ x.category_label)) hI_j
  rw [hcomps]
  unfold tryFromPath
  dsimp only
  rw [hfold, hFp, hFpn, hFa, hFan, hFc, hFcn, hFjp, hFjc, hFji, hFjn]
  rw [if_neg (by simp), if_neg (by simp)]
  dsimp only
  rw [if_neg (by simp [val2_zero_mod]), if_neg (by simp [val2_nine_eq])]
  rw [new_eq_ok hcat hid (fun p hp2 => Option.noConfusion hp2)]


set_option maxHeartbeats 1000000 in
theorem roundtrip_proj {x : JdNumber} {p : Nat} {pl : String}
    (hproj : x.project = some p) (hplv : x.project_label = some pl)
    (hple : p ≤ 999) (hplOk : labelOk2 pl)
    (hcat : x.category ≤ 99) (hid : x.id ≤ 99)
    (han : labelOk1 x.area_label) (hcn : labelOk2 x.category_label)
    (hjn : labelOk1 x.label)
    (hnc : areaCaptures ((pad2 x.category).data ++ x.category_label.data) = none) :
    tryFromPath (get_relative_path x)
      = .ok ⟨some p, some pl, none, x.category, x.id, x.label, x.area_label,
             x.category_label, .path (get_relative_path x)⟩ := by
  have hcomps : get_relative_path x = [pad3 p ++ pl, get_area x,
      pad2 x.category ++ x.category_label,
      pad3 p ++ "." ++ pad2 x.category ++ "." ++ pad2 x.id ++ x.label] := by
    simp [get_relative_path, hproj, hplv]
  obtain ⟨d1, d2, hd, hd1, hd2, hdv⟩ := pad2_spec hcat
  obtain ⟨e1, e2, he, he1, he2, hev⟩ := pad2_spec hid
  obtain ⟨g1, g2, g3, hg, hg1, hg2, hg3, hgv⟩ := pad3_spec hple
  have hch : isDig ((Nat.repr x.category).data.headD '0') = true :=
    repr_head_digit x.category (by omega)
  obtain ⟨hane, ha0d, hannl⟩ := han
  obtain ⟨⟨hcne, hq0d, hcnnl⟩, hqd0⟩ := hcn
  obtain ⟨hjne, hf0d, hjnnl⟩ := hjn
  obtain ⟨⟨hpne, hp0d, hpnnl⟩, hpd0⟩ := hplOk
  rcases hanl : x.area_label.data with _ | ⟨a0, arest⟩
  · exact absurd hanl hane
  rcases hcnl : x.category_label.data with _ | ⟨q, t⟩
  · exact absurd hcnl hcne
  rcases hjnl : x.label.data with _ | ⟨f, ft⟩
  · exact absurd hjnl hjne
  rcases hpnl : pl.data with _ | ⟨w, wt⟩
  · exact absurd hpnl hpne
  rw [hanl] at ha0d hannl
  rw [hcnl] at hq0d hcnnl
  rw [hjnl] at hf0d hjnnl
  rw [hpnl] at hp0d hpnnl
  simp only [List.tail_cons] at hannl hcnnl hjnnl hpnnl
  have ha0 : isDig a0 = false := ha0d
  have hq : isDig q = false := hq0d
  have hqd : q ≠ '.' := by rw [hcnl] at hqd0; exact hqd0
  have hf : isDig f = false := hf0d
  have hw : isDig w = false := hp0d
  have hwd : w ≠ '.' := by rw [hpnl] at hpd0; exact hpd0
  have hanl2 : (⟨a0 :: arest⟩ : String) = x.area_label := by rw [← hanl]
  have hcnl2 : (⟨q :: t⟩ : String) = x.category_label := by rw [← hcnl]
  have hjnl2 : (⟨f :: ft⟩ : String) = x.label := by rw [← hjnl]
  have hpnl2 : (⟨w :: wt⟩ : String) = pl := by rw [← hpnl]
  have hCP : (pad3 p ++ pl).data = g1 :: g2 :: g3 :: w :: wt := by
    rw [String.data_append, hg, hpnl]
    rfl
  have hCA : (get_area x).data = (Nat.repr x.category).data.headD '0' :: '0' :: '-' ::
      (Nat.repr x.category).data.headD '0' :: '9' :: (a0 :: arest) := by
    rw [← hanl]
    rfl
  have hCC : (pad2 x.category ++ x.category_label).data = d1 :: d2 :: q :: t := by
    rw [String.data_append, hd, hcnl]
    rfl
  have hCI : (pad3 p ++ "." ++ pad2 x.category ++ "." ++ pad2 x.id ++ x.label).data
      = g1 :: g2 :: g3 :: '.' :: d1 :: d2 :: '.' :: e1 :: e2 :: f :: ft := by
    rw [String.data_append, String.data_append, String.data_append, String.data_append,
      String.data_append, hg, hd, he, hjnl]
    rfl
  have hP_p : projectCaptures (pad3 p ++ pl).data = some (p, pl) := by
    rw [hCP, ← hgv, ← hpnl2]
    exact projectCaptures_of hg1 hg2 hg3 hw (beq_eq_false_iff_ne.mpr hwd)
      (contains_false_iff.mpr hpnnl)
  have hP_a : areaCaptures (pad3 p ++ pl).data = none := by
    rw [hCP]
    exact areaCaptures_none_c3 (isDig_beq_false hg3 (by decide))
  have hP_c : categoryCaptures (pad3 p ++ pl).data = none := by
    rw [hCP]
    exact categoryCaptures_none_c3 (Or.inl hg3)
  have hA_p : projectCaptures (get_area x).data = none := by
    rw [hCA]
    exact projectCaptures_none_c3 (by decide)
  have hA_a : areaCaptures (get_area x).data
      = some (val2 ((Nat.repr x.category).data.headD '0') '0',
              val2 ((Nat.repr x.category).data.headD '0') '9', x.area_label) := by
    rw [hCA, ← hanl2]
    exact areaCaptures_of hch (by decide) hch (by decide) ha0
      (contains_false_iff.mpr hannl)
  have hC_p : projectCaptures (pad2 x.category ++ x.category_label).data = none := by
    rw [hCC]
    exact projectCaptures_none_c3 hq
  have hC_a : areaCaptures (pad2 x.category ++ x.category_label).data = none := by
    rw [String.data_append]
    exact hnc
  have hC_c : categoryCaptures (pad2 x.category ++ x.category_label).data
      = some (x.category, x.category_label) := by
    rw [hCC, ← hdv, ← hcnl2]
    exact categoryCaptures_of hd1 hd2 hq (beq_eq_false_iff_ne.mpr hqd)
      (contains_false_iff.mpr hcnnl)
  have hI_p : projectCaptures
      (pad3 p ++ "." ++ pad2 x.category ++ "." ++ pad2 x.id ++ x.label).data = none := by
    rw [hCI]
    exact projectCaptures_none_c4 (Or.inr rfl)
  have hI_a : areaCaptures
      (pad3 p ++ "." ++ pad2 x.category ++ "." ++ pad2 x.id ++ x.label).data = none := by
    rw [hCI]
    exact areaCaptures_none_c3 (isDig_beq_false hg3 (by decide))
  have hI_c : categoryCaptures
      (pad3 p ++ "." ++ pad2 x.category ++ "." ++ pad2 x.id ++ x.label).data = none := by
    rw [hCI]
    exact categoryCaptures_none_c3 (Or.inl hg3)
  have hI_j : jdCaptures
      (pad3 p ++ "." ++ pad2 x.category ++ "." ++ pad2 x.id ++ x.label).data
      = some (some p, x.category, x.id, x.label) := by
    rw [hCI]
    apply jdCaptures_first
    rw [jdLinePattern_item3 hg1 hg2 hg3 hd1 hd2 he1 he2 hf, takeWhile_noNL hjnnl,
      hgv, hdv, hev, hjnl2]
  have hfold : [pad3 p ++ pl, get_area x, pad2 x.category ++ x.category_label,
      pad3 p ++ "." ++ pad2 x.category ++ "." ++ pad2 x.id ++ x.label].foldl scanComp {}
      = scanComp (scanComp (scanComp (scanComp {} (pad3 p ++ pl)) (get_area x))
          (pad2 x.category ++ x.category_label))
          (pad3 p ++ "." ++ pad2 x.category ++ "." ++ pad2 x.id ++ x.label) := rfl
  have hFp : (scanComp (scanComp (scanComp (scanComp {} (pad3 p ++ pl)) (get_area x))
      (pad2 x.category ++ x.category_label))
      (pad3 p ++ "." ++ pad2 x.category ++ "." ++ pad2 x.id ++ x.label)).project
      = some p := by
    rw [(scanComp_project_keep _ hI_p).1, (scanComp_project_keep _ hC_p).1,
      (scanComp_project_keep _ hA_p).1, (scanComp_project_some _ hP_p).1]
  have hFpn : (scanComp (scanComp (scanComp (scanComp {} (pad3 p ++ pl)) (get_area x))
      (pad2 x.category ++ x.category_label))
      (pad3 p ++ "." ++ pad2 x.category ++ "." ++ pad2 x.id ++ x.label)).project_name
      = some pl := by
    rw [(scanComp_project_keep _ hI_p).2, (scanComp_project_keep _ hC_p).2,
      (scanComp_project_keep _ hA_p).2, (scanComp_project_some _ hP_p).2]
  have hFa : (scanComp (scanComp (scanComp (scanComp {} (pad3 p ++ pl)) (get_area x))
      (pad2 x.category ++ x.category_label))
      (pad3 p ++ "." ++ pad2 x.category ++ "." ++ pad2 x.id ++ x.label)).area
      = some (val2 ((Nat.repr x.category).data.headD '0') '0',
              val2 ((Nat.repr x.category).data.headD '0') '9') := by
    rw [(scanComp_area_keep _ hI_a).1, (scanComp_area_keep _ hC_a).1,
      (scanComp_area_some _ hA_a).1]
  have hFan : (scanComp (scanComp (scanComp (scanComp {} (pad3 p ++ pl)) (get_area x))
      (pad2 x.category ++ x.category_label))
      (pad3 p ++ "." ++ pad2 x.category ++ "." ++ pad2 x.id ++ x.label)).area_name
      = some x.area_label := by
    rw [(scanComp_area_keep _ hI_a).2, (scanComp_area_keep _ hC_a).2,
      (scanComp_area_some _ hA_a).2]
  have hFc : (scanComp (scanComp (scanComp (scanComp {} (pad3 p ++ pl)) (get_area x))
      (pad2 x.category ++ x.category_label))
      (pad3 p ++ "." ++ pad2 x.category ++ "." ++ pad2 x.id ++ x.label)).category
      = some x.category := by
    rw [(scanComp_category_keep _ hI_c).1, (scanComp_category_some _ hC_c).1]
  have hFcn : (scanComp (scanComp (scanComp (scanComp {} (pad3 p ++ pl)) (get_area x))
      (pad2 x.category ++ x.category_label))
      (pad3 p ++ "." ++ pad2 x.category ++ "." ++ pad2 x.id ++ x.label)).category_name
      = some x.category_label := by
    rw [(scanComp_category_keep _ hI_c).2, (scanComp_category_some _ hC_c).2]
  obtain ⟨hFjp, hFjc, hFji, hFjn⟩ := scanComp_jd_some
    (scanComp (scanComp (scanComp {} (pad3 p ++ pl)) (get_area x))
      (pad2 x.category ++ x.category_label)) hI_j
  rw [hcomps]
  unfold tryFromPath
  dsimp only
  rw [hfold, hFp, hFpn, hFa, hFan, hFc, hFcn, hFjp, hFjc, hFji, hFjn]
  rw [if_neg (by simp), if_neg (by simp)]
  dsimp only
  rw [if_neg (by simp [val2_zero_mod]), if_neg (by simp [val2_nine_eq])]
  rw [new_eq_ok hcat hid (fun q2 hq2 => by
    rw [Option.some_inj] at hq2
    omega)]
end JD

open JD

/-- C2: for every two identifiers the comparison is the lexicographic
order on (project, category, id) with an absent project below every
present one; it returns `eq` exactly when the three numeric fields agree
(which is also the `PartialEq` test), and replacing every label and the
path of either argument never changes the comparison. -/
theorem c2_order_lexicographic :
    ∀ a b : JdNumber,
      jdCmp a b = specCompare a b
      ∧ (jdCmp a b = .eq ↔
          a.project = b.project ∧ a.category = b.category ∧ a.id = b.id)
      ∧ (jdBEq a b = true ↔ jdCmp a b = .eq)
      ∧ (∀ l al cl pl pal pth,
          jdCmp { a with label := l, area_label := al, category_label := cl,
                         project_label := pl, project_area_label := pal,
                         path := pth } b = jdCmp a b)
      ∧ (∀ l al cl pl pal pth,
          jdCmp a { b with label := l, area_label := al, category_label := cl,
                           project_label := pl, project_area_label := pal,
                           path := pth } = jdCmp a b) := by
  intro a b
  refine ⟨?_, ?_, ?_, ?_, ?_⟩
  · rcases ha : a.project with _ | p <;> rcases hb : b.project with _ | q <;>
      simp only [jdCmp, specCompare, specProjCompare, ha, hb, Ordering.then]
    · rcases Nat.lt_trichotomy a.category b.category with h | h | h <;>
        rcases Nat.lt_trichotomy a.id b.id with h2 | h2 | h2 <;>
        simp [Nat.compare_eq_lt.mpr, Nat.compare_eq_gt.mpr, Nat.compare_eq_eq.mpr, h, h2,
          Nat.lt_asymm, Nat.lt_irrefl] <;> omega
    · rcases Nat.lt_trichotomy p q with h | h | h
      · simp [Nat.compare_eq_lt.mpr h, h, Nat.lt_asymm h]
      · subst h
        simp only [Nat.compare_eq_eq.mpr rfl, lt_irrefl, if_false]
        rcases Nat.lt_trichotomy a.category b.category with h | h | h <;>
          rcases Nat.lt_trichotomy a.id b.id with h2 | h2 | h2 <;>
          simp [Nat.compare_eq_lt.mpr, Nat.compare_eq_gt.mpr, Nat.compare_eq_eq.mpr, h, h2,
            Nat.lt_asymm, Nat.lt_irrefl, Ordering.then] <;> omega
      · simp [Nat.compare_eq_gt.mpr h, h, Nat.lt_asymm h]
  · rcases ha : a.project with _ | p <;> rcases hb : b.project with _ | q <;>
      simp only [jdCmp, ha, hb] <;> repeat' split
    all_goals simp_all <;> omega
  · rcases ha : a.project with _ | p <;> rcases hb : b.project with _ | q <;>
      simp only [jdCmp, jdBEq, ha, hb, Option.some.injEq, beq_iff_eq,
        Bool.and_eq_true, decide_eq_true_eq] <;> repeat' split
    all_goals simp_all <;> omega
  · intro l al cl pl pal pth
    rcases ha : a.project with _ | p <;> rcases hb : b.project with _ | q <;>
      simp only [jdCmp, ha, hb]
  · intro l al cl pl pal pth
    rcases ha : a.project with _ | p <;> rcases hb : b.project with _ | q <;>
      simp only [jdCmp, ha, hb]

/-- C1: every index reachable from the empty index by a sequence of Add
operations is strictly increasing under the §4.1 order (so no two
elements compare equal), and on any reachable index `add_id` returns the
duplicate error exactly when an element comparing equal is already
present, leaving the sequence unchanged in that case. -/
theorem c1_add_sort_unique (l : List JdNumber) (h : Reachable l) :
    sortedLt l
    ∧ ∀ x : JdNumber,
        (add_id l x = .error "Element already exists." ↔ ∃ y ∈ l, jdCmp y x = .eq)
        ∧ (∀ e, add_id l x = .error e → applyAdd l x = l) := by
  have hs := reachable_sorted h
  refine ⟨hs, fun x => ⟨⟨?_, ?_⟩, ?_⟩⟩
  · intro herr
    rcases hres : binary_search l x with pos | i
    · simp only [add_id, hres] at herr
      exact Except.noConfusion herr
    · exact (binary_search_ok_iff hs).mp ⟨i, hres⟩
  · intro hex
    obtain ⟨i, hres⟩ := (binary_search_ok_iff hs).mpr hex
    simp only [add_id, hres]
  · intro e herr
    simp only [applyAdd, herr]

/-- Witness for C1 at a concrete reachable index. -/
theorem c1_add_sort_unique_witness :
    sortedLt [jdA]
    ∧ (add_id [jdA] jdA = .error "Element already exists." ↔ ∃ y ∈ [jdA], jdCmp y jdA = .eq) := by
  have h := c1_add_sort_unique (applyAdd [] jdA) (Reachable.step [] jdA Reachable.nil)
  have he : applyAdd [] jdA = [jdA] := rfl
  rw [he] at h
  exact ⟨h.1, (h.2 jdA).1⟩

/-- Counterexample to C5: the string "12345.67" is not of shape CC.II or
PPP.CC.II, yet parsing it succeeds (project 123, category 45, id 67)
because the dot after the optional project group is independently
optional; moreover the accepted string "50.42" yields an identifier
whose label field is the constant "label", not empty. -/
theorem c5_counterexample :
    c5ClaimShape "12345.67".data = false
    ∧ tryFromString "12345.67" =
        .ok ⟨some 123, none, none, 45, 67, "label", "", "", .path []⟩
    ∧ tryFromString "50.42" =
        .ok ⟨none, none, none, 50, 42, "label", "", "", .path []⟩ :=
  ⟨by decide, rfl, rfl⟩

/-- C5 (amended): parsing a typed short string succeeds exactly on an
optional three-digit project group followed by an independently optional
literal dot and then CC.II (so also on DDDDD.DD and .DD.DD); it fills
project, category and id from the digit groups, leaves the area and
category labels empty and the project label absent, but sets the item
label to the constant string "label"; every other input is rejected with
an error. -/
theorem c5_string_parse (s : String) : tryFromString s = c5SpecParse s := by
  obtain ⟨l⟩ := s
  rcases l with _ | ⟨a, _ | ⟨b, _ | ⟨c, _ | ⟨d, _ | ⟨e, _ | ⟨f, _ | ⟨g, _ | ⟨h2, _ | ⟨i2, rest⟩⟩⟩⟩⟩⟩⟩⟩⟩
  · rfl
  · rfl
  · rfl
  · rfl
  · rfl
  · by_cases hc : (isDig a && isDig b && (c == '.') && isDig d && isDig e) = true
    · have hc2 := hc
      simp only [Bool.and_eq_true] at hc2
      obtain ⟨⟨⟨⟨ha, hb⟩, hdot⟩, hd⟩, he⟩ := hc2
      simp only [tryFromString, jdDigitsCaptures, c5SpecParse, hc, if_true]
      rw [new_eq_ok (val2_le99 ha hb) (val2_le99 hd he) (fun p hp => Option.noConfusion hp)]
    · simp only [tryFromString, jdDigitsCaptures, c5SpecParse, if_neg hc]
  · by_cases hc : ((a == '.') && isDig b && isDig c && (d == '.') && isDig e && isDig f) = true
    · have hc2 := hc
      simp only [Bool.and_eq_true] at hc2
      obtain ⟨⟨⟨⟨⟨hadot, hb⟩, hcd⟩, hdot⟩, he⟩, hf⟩ := hc2
      simp only [tryFromString, jdDigitsCaptures, c5SpecParse, hc, if_true]
      rw [new_eq_ok (val2_le99 hb hcd) (val2_le99 he hf) (fun p hp => Option.noConfusion hp)]
    · simp only [tryFromString, jdDigitsCaptures, c5SpecParse, if_neg hc]
  · rfl
  · by_cases hc : (isDig a && isDig b && isDig c && isDig d && isDig e && (f == '.')
        && isDig g && isDig h2) = true
    · have hc2 := hc
      simp only [Bool.and_eq_true] at hc2
      obtain ⟨⟨⟨⟨⟨⟨⟨ha, hb⟩, hcd⟩, hd⟩, he⟩, hfdot⟩, hg⟩, hh⟩ := hc2
      simp only [tryFromString, jdDigitsCaptures, c5SpecParse, hc, if_true]
      rw [new_eq_ok (val2_le99 hd he) (val2_le99 hg hh)
        (fun p hp => (Option.some.inj hp) ▸ val3_le999 ha hb hcd)]
    · simp only [tryFromString, jdDigitsCaptures, c5SpecParse, if_neg hc]
  · rcases rest with _ | ⟨j2, rest⟩
    · by_cases hc : (isDig a && isDig b && isDig c && (d == '.') && isDig e && isDig f
          && (g == '.') && isDig h2 && isDig i2) = true
      · have hc2 := hc
        simp only [Bool.and_eq_true] at hc2
        obtain ⟨⟨⟨⟨⟨⟨⟨⟨ha, hb⟩, hcd⟩, hdot⟩, he⟩, hf⟩, hgdot⟩, hh⟩, hi⟩ := hc2
        simp only [tryFromString, jdDigitsCaptures, c5SpecParse, hc, if_true]
        rw [new_eq_ok (val2_le99 he hf) (val2_le99 hh hi)
          (fun p hp => (Option.some.inj hp) ▸ val3_le999 ha hb hcd)]
      · simp only [tryFromString, jdDigitsCaptures, c5SpecParse, if_neg hc]
    · rfl

/-- Counterexample to C6: on the input ".45" the shared partial-number
parser returns (none, category 45, none), while the claim's table maps
".45" (not of any claimed form) to the empty filter. -/
theorem c6_counterexample :
    parse_jd_input ".45" = (none, some 45, none)
    ∧ c6ClaimTable ".45" = (none, none, none) :=
  ⟨by decide, by decide⟩

/-- C6 (amended): the shared partial-number parser implements the
priority table of the three regexes: a full identifier shape (DDD.DD.DD,
DD.DD, and also DDDDD.DD and .DD.DD) yields (project?, category, id); a
bare three-digit string yields (project, none, none); a category shape
(DD, DDD.DD, and also .DD and DDDDD) yields (project?, category, none);
every other string yields the empty filter, and no input raises an
error. -/
theorem c6_partial_table (s : String) : parse_jd_input s = c6AmendedTable s := by
  unfold parse_jd_input c6AmendedTable
  rcases hjd : jdDigitsCaptures s.data with _ | ⟨p, c, i⟩
  · rcases hproj : projExCaptures s.data with _ | p
    · rcases hcat : catExCaptures s.data with _ | ⟨cp, cc⟩ <;> simp [hjd, hproj, hcat]
    · have hcat := projEx_catEx_disjoint hproj
      simp [hjd, hproj, hcat]
  · simp [hjd]

/-- Counterexample to C4: for the single-digit category 5 the rendered
area segment of the relative path is 50-59, not the claimed 00-09. -/
theorem c4_counterexample :
    get_area jdCat5 = "50-59_area"
    ∧ get_area jdCat5 ≠ "00-09_area"
    ∧ (get_relative_path jdCat5).headD "" = "50-59_area" :=
  ⟨by decide, by decide, by decide⟩

/-- C4 (amended): the relative path has the form
`[PPP<project_label>/]AA-BB<area_label>/CC<category_label>/[PPP.]CC.II<label>`
with project padded to three digits and category and id to two, where
`AA` is the FIRST decimal digit of the category times ten (equal to
`(category/10)*10` only for categories of two digits; for category `c`
between 1 and 9 the area segment is `C0-C9`, not 00-09) and
`BB = AA + 9`. -/
theorem c4_relative_path_form (x : JdNumber) (hc : x.category ≤ 99) :
    get_area x = pad2 (areaFirst x.category) ++ "-" ++ pad2 (areaFirst x.category + 9)
        ++ x.area_label
    ∧ get_relative_path x =
        (match x.project, x.project_label with
          | some p, some pl => [pad3 p ++ pl]
          | _, _ => [])
        ++ [get_area x, pad2 x.category ++ x.category_label,
            match x.project with
            | none => pad2 x.category ++ "." ++ pad2 x.id ++ x.label
            | some p => pad3 p ++ "." ++ pad2 x.category ++ "." ++ pad2 x.id ++ x.label] := by
  constructor
  · apply string_ext
    simp only [get_area, String.data_append]
    have h := area_prefix_eq x.category (by omega)
    rw [show ((Nat.repr x.category).data.headD '0') :: '0' :: '-'
          :: ((Nat.repr x.category).data.headD '0') :: '9' :: x.area_label.data
        = (((Nat.repr x.category).data.headD '0') :: '0' :: '-'
          :: ((Nat.repr x.category).data.headD '0') :: '9' :: []) ++ x.area_label.data
        from rfl, h]
    have hdash : "-".data = ['-'] := rfl
    simp [hdash, List.append_assoc]
  · rcases hp : x.project with _ | p <;> rcases hpl : x.project_label with _ | pl <;>
      simp [get_relative_path, hp, hpl]

/-- Witness for C4 (amended) at the concrete category-5 identifier. -/
theorem c4_relative_path_form_witness :
    get_area jdCat5 = pad2 (areaFirst jdCat5.category) ++ "-"
      ++ pad2 (areaFirst jdCat5.category + 9) ++ jdCat5.area_label :=
  (c4_relative_path_form jdCat5 (by decide)).1

/-- Counterexample to C7: in a system with a project layer the project
header line is emitted with NO indentation, while the claim gives the
header lines two, four and six spaces; the rendered output does not
start with two spaces. -/
theorem c7_counterexample :
    display sysProj none = .ok "101_p\n  10-19_a\n    12_c\n      101.12.01_l\n"
    ∧ ("101_p\n  10-19_a\n    12_c\n      101.12.01_l\n").take 2 ≠ "  " :=
  ⟨by decide, by decide⟩

/-- C7 (amended): the display loop emits a project header (unpadded
number, NO indentation) when the project label changes from the previous
entry, an area header at two spaces when the area label changes, a
category header at four spaces (unpadded number) when the category label
changes, then the identifier line at six spaces — the same indentation
whether or not a project layer is present; every emitted line ends with
a newline, and a due project header for an entry without a project
number panics. -/
theorem c7_display_indentation (l : List JdNumber) :
    renderLines (none, "", "") l = specRender none l :=
  render_eq_spec l none

/-- C10: when the input parses to a present category but the filtered
(project, category) bucket is empty, Auto-Add panics by indexing the
last element of the empty sorted vector instead of returning an error;
the "Could not find category." error is produced exactly when the
category is absent from the input itself. -/
theorem c10_autoadd_panic (sys : System) (input title : String) :
    ((parse_jd_input input).2.1.isSome = true →
      filter_id sys (parse_jd_input input).1 (parse_jd_input input).2.1 none = [] →
      add_id_from_str sys input title = .panic)
    ∧ (add_id_from_str sys input title = .err "Could not find category."
        ↔ (parse_jd_input input).2.1 = none) := by
  rcases hc : (parse_jd_input input).2.1 with _ | c
  · constructor
    · intro hsome
      simp at hsome
    · constructor
      · intro _
        rfl
      · intro _
        simp only [add_id_from_str, hc]
  · constructor
    · intro _ hempty
      simp only [add_id_from_str, hc, hempty, List.mergeSort_nil, List.getLast?_nil]
    · constructor
      · intro heq
        exfalso
        simp only [add_id_from_str, hc] at heq
        rcases hlast : ((filter_id sys (parse_jd_input input).1 (some c) none).mergeSort
            jdLe).getLast? with _ | number
        · simp only [hlast] at heq
          exact AddRes.noConfusion heq
        · simp only [hlast] at heq
          rcases hnew : JdNumber.new number.area_label number.category_label number.category
              (number.id + 1) number.project number.project_label number.project_area_label
              title [] with e2 | jd0
          · simp only [hnew] at heq
            exact absurd (AddRes.err.inj heq) (by decide)
          · simp only [hnew] at heq
            rcases hadd : add_id sys.id
                { jd0 with path := Location.path (sys.path ++ get_relative_path jd0) }
              with e3 | ids
            · simp only [hadd] at heq
              have hmsg := add_id_error_msg hadd
              have h2 := AddRes.err.inj heq
              rw [hmsg] at h2
              exact absurd h2 (by decide)
            · simp only [hadd] at heq
              exact AddRes.noConfusion heq
      · intro hnone
        exact Option.noConfusion hnone

/-- Witness for C10 at the empty system and the input "12". -/
theorem c10_autoadd_panic_witness :
    add_id_from_str ⟨[], []⟩ "12" "_t" = .panic :=
  (c10_autoadd_panic ⟨[], []⟩ "12" "_t").1 (by decide) (by decide)

/-- Counterexample to C9: the 12-bucket of `sys9` contains the id 50,
which is below 99, yet Auto-Add on "12" fails, because the bucket
maximum is 99 and the next id 100 is out of range. -/
theorem c9_counterexample :
    (∃ y ∈ sys9.id, y.project = none ∧ y.category = 12 ∧ y.id < 99)
    ∧ parse_jd_input "12" = (none, some 12, none)
    ∧ add_id_from_str sys9 "12" "_t" = .err "Could not create JD number." := by
  refine ⟨by decide, by decide, ?_⟩
  have hfil : filter_id sys9 none (some 12) none = [jd1250, jd1299] := by decide
  have hsorted : List.Pairwise (fun a b => jdLe a b = true) [jd1250, jd1299] := by decide
  simp only [add_id_from_str, show parse_jd_input "12" = (none, some 12, none) from by decide]
  rw [hfil, List.mergeSort_of_sorted hsorted]
  decide

/-- C9 (amended): when the partial number parses to project `p` and a
present category `c`, the (project, category) bucket is non-empty with
its MAXIMUM id at most 98 (the claim's "at least one id below 99" is not
enough), the index is sorted (the Add invariant) and its entries respect
the digit budgets of the data model, then Auto-Add succeeds and inserts
an identifier whose id is one plus the previous bucket maximum, so the
bucket maximum strictly increases by exactly one. -/
theorem c9_autoadd_next_id (sys : System) (input title : String)
    {p : Option Nat} {c : Nat}
    (hsorted : sortedLt sys.id)
    (hwf : ∀ y ∈ sys.id, y.category ≤ 99 ∧ ∀ q, y.project = some q → q ≤ 999)
    (hp : (parse_jd_input input).1 = p)
    (hc : (parse_jd_input input).2.1 = some c)
    (hne : filter_id sys p (some c) none ≠ [])
    (hmax : maxId (filter_id sys p (some c) none) ≤ 98) :
    ∃ sys2, add_id_from_str sys input title = .ok sys2
      ∧ (∃ j ∈ sys2.id, j.project = p ∧ j.category = c
          ∧ j.id = maxId (filter_id sys p (some c) none) + 1)
      ∧ maxId (filter_id sys2 p (some c) none)
          = maxId (filter_id sys p (some c) none) + 1 := by
  have hperm : List.Perm ((filter_id sys p (some c) none).mergeSort jdLe)
      (filter_id sys p (some c) none) :=
    List.mergeSort_perm (filter_id sys p (some c) none) jdLe
  have hnum_ne : (filter_id sys p (some c) none).mergeSort jdLe ≠ [] := by
    intro h0
    apply hne
    have hl := hperm.length_eq
    rw [h0] at hl
    exact List.length_eq_zero.mp hl.symm
  obtain ⟨number, hlast⟩ :
      ∃ n, ((filter_id sys p (some c) none).mergeSort jdLe).getLast? = some n := by
    rcases hn : ((filter_id sys p (some c) none).mergeSort jdLe).getLast? with _ | n
    · exfalso
      apply hnum_ne
      cases hmw : (filter_id sys p (some c) none).mergeSort jdLe with
      | nil => rfl
      | cons z zs =>
        rw [hmw] at hn
        exact absurd hn (by simp [List.getLast?_eq_getLast])
    · exact ⟨n, rfl⟩
  have hsortedLe : List.Pairwise (fun a b => jdLe a b = true)
      ((filter_id sys p (some c) none).mergeSort jdLe) :=
    List.sorted_mergeSort (fun a b c2 hab hbc => jdLe_trans a b c2 hab hbc) jdLe_total
      (filter_id sys p (some c) none)
  have hnumber_mem : number ∈ filter_id sys p (some c) none :=
    hperm.mem_iff.mp (List.mem_of_getLast?_eq_some hlast)
  obtain ⟨hnmem, hnproj, hncat⟩ := mem_filter_id_some.mp hnumber_mem
  obtain ⟨hcatle, hprojle⟩ := hwf number hnmem
  have hidle : ∀ y ∈ filter_id sys p (some c) none, y.id ≤ number.id := by
    intro y hy
    have hyle : jdLe y number = true :=
      getLast?_ge_of_pairwise hsortedLe hlast y (hperm.mem_iff.mpr hy)
    obtain ⟨hymem, hyproj, hycat⟩ := mem_filter_id_some.mp hy
    have hnk := not_keyLt_of_jdLe hyle
    unfold keyLt at hnk
    have e1 : pk number.project = pk y.project := by rw [hnproj, hyproj]
    have e2 : number.category = y.category := by rw [hncat, hycat]
    omega
  have hmaxeq : maxId (filter_id sys p (some c) none) = number.id :=
    le_antisymm (maxId_le hidle) (le_maxId hnumber_mem)
  have hid99 : number.id + 1 ≤ 99 := by omega
  have hnew : JdNumber.new number.area_label number.category_label number.category
      (number.id + 1) number.project number.project_label number.project_area_label
      title [] = .ok ⟨number.project, number.project_label, number.project_area_label,
        number.category, number.id + 1, title, number.area_label, number.category_label,
        .path []⟩ := new_eq_ok hcatle hid99 hprojle
  have hnotmem : ¬ ∃ y ∈ sys.id, jdCmp y
      ⟨number.project, number.project_label, number.project_area_label, number.category,
        number.id + 1, title, number.area_label, number.category_label,
        .path (sys.path ++ get_relative_path
          ⟨number.project, number.project_label, number.project_area_label, number.category,
            number.id + 1, title, number.area_label, number.category_label, .path []⟩)⟩
      = .eq := by
    rintro ⟨y, hymem, hyeq⟩
    rw [jdCmp_eq_iff] at hyeq
    dsimp only at hyeq
    obtain ⟨hpkq, hcat2, hid2⟩ := hyeq
    have hyproj2 : y.project = number.project := pk_inj hpkq
    have hybucket : y ∈ filter_id sys p (some c) none :=
      mem_filter_id_some.mpr ⟨hymem, by rw [hyproj2, hnproj], by rw [hcat2]; exact hncat⟩
    have := hidle y hybucket
    omega
  rcases hbs : binary_search sys.id
      ⟨number.project, number.project_label, number.project_area_label, number.category,
        number.id + 1, title, number.area_label, number.category_label,
        .path (sys.path ++ get_relative_path
          ⟨number.project, number.project_label, number.project_area_label, number.category,
            number.id + 1, title, number.area_label, number.category_label, .path []⟩)⟩
    with pos | i
  case ok =>
    exact absurd ((binary_search_ok_iff hsorted).mp ⟨i, hbs⟩) hnotmem
  case error =>
    refine ⟨⟨sys.path, sys.id.take pos
        ++ ⟨number.project, number.project_label, number.project_area_label, number.category,
          number.id + 1, title, number.area_label, number.category_label,
          .path (sys.path ++ get_relative_path
            ⟨number.project, number.project_label, number.project_area_label, number.category,
              number.id + 1, title, number.area_label, number.category_label, .path []⟩)⟩
        :: sys.id.drop pos⟩, ?_, ?_, ?_⟩
    · simp only [add_id_from_str, hp, hc, hlast, hnew, add_id, hbs]
    · refine ⟨⟨number.project, number.project_label, number.project_area_label,
        number.category, number.id + 1, title, number.area_label, number.category_label,
        .path (sys.path ++ get_relative_path
          ⟨number.project, number.project_label, number.project_area_label, number.category,
            number.id + 1, title, number.area_label, number.category_label, .path []⟩)⟩,
        by simp, hnproj, hncat, by dsimp only; omega⟩
    · have hsub : ∀ y : JdNumber, y ∈ sys.id.take pos ∨ y ∈ sys.id.drop pos → y ∈ sys.id := by
        intro y hy
        rcases hy with hy | hy
        · exact List.take_subset pos sys.id hy
        · exact List.drop_subset pos sys.id hy
      apply le_antisymm
      · apply maxId_le
        intro y hy
        obtain ⟨hymem, hyproj, hycat⟩ := mem_filter_id_some.mp hy
        simp only [List.mem_append, List.mem_cons] at hymem
        rcases hymem with hy1 | hy1 | hy1
        · have : y ∈ filter_id sys p (some c) none :=
            mem_filter_id_some.mpr ⟨hsub y (Or.inl hy1), hyproj, hycat⟩
          have := hidle y this
          omega
        · rw [hy1]
          dsimp only
          omega
        · have : y ∈ filter_id sys p (some c) none :=
            mem_filter_id_some.mpr ⟨hsub y (Or.inr hy1), hyproj, hycat⟩
          have := hidle y this
          omega
      · rw [hmaxeq]
        have hjmem : (⟨number.project, number.project_label, number.project_area_label,
            number.category, number.id + 1, title, number.area_label, number.category_label,
            .path (sys.path ++ get_relative_path
              ⟨number.project, number.project_label, number.project_area_label,
                number.category, number.id + 1, title, number.area_label,
                number.category_label, .path []⟩)⟩ : JdNumber)
            ∈ filter_id ⟨sys.path, sys.id.take pos
              ++ ⟨number.project, number.project_label, number.project_area_label,
                number.category, number.id + 1, title, number.area_label,
                number.category_label,
                .path (sys.path ++ get_relative_path
                  ⟨number.project, number.project_label, number.project_area_label,
                    number.category, number.id + 1, title, number.area_label,
                    number.category_label, .path []⟩)⟩
              :: sys.id.drop pos⟩ p (some c) none :=
          mem_filter_id_some.mpr ⟨by simp, hnproj, hncat⟩
        exact le_maxId hjmem

/-- Witness for C9 (amended) at a one-element 12-bucket. -/
theorem c9_autoadd_next_id_witness :
    ∃ sys2, add_id_from_str ⟨[], [jdA]⟩ "12" "_t" = .ok sys2
      ∧ (∃ j ∈ sys2.id, j.project = none ∧ j.category = 12
          ∧ j.id = maxId (filter_id ⟨[], [jdA]⟩ none (some 12) none) + 1)
      ∧ maxId (filter_id sys2 none (some 12) none)
          = maxId (filter_id ⟨[], [jdA]⟩ none (some 12) none) + 1 :=
  c9_autoadd_next_id ⟨[], [jdA]⟩ "12" "_t" (List.chain'_singleton jdA) (by decide) (by decide)
    (by decide) (by decide) (by decide)

/-- Counterexample to C8: the input "500-501_bad" carries a project-area
range violating `second = first + 99` and containing no project lines,
yet it is accepted through the with-projects production (the checks run
only inside the per-project loop). -/
theorem c8_counterexample :
    parse_with_projects "500-501_bad" = .ok ⟨[], []⟩
    ∧ System.parse "500-501_bad" = .ok ⟨[], []⟩
    ∧ 500 % 100 = 0 ∧ 501 ≠ 500 + 99 :=
  ⟨rfl, by decide, by decide, by decide⟩

theorem semProjAreas_ranges : ∀ blocks ids ids2, semProjAreas blocks ids = .ok ids2 →
    ∀ pr ∈ blocks, pr.2 ≠ [] → pr.1.1.1 % 100 = 0 ∧ pr.1.1.2 = pr.1.1.1 + 99 := by
  intro blocks
  induction blocks with
  | nil =>
    intro ids ids2 h pr hmem
    exact absurd hmem (by simp)
  | cons b rest ih =>
    intro ids ids2 h pr hmem hne2
    obtain ⟨⟨⟨pf, pl⟩, palbl⟩, projects⟩ := b
    simp only [semProjAreas] at h
    rcases hsp : semProjects pf pl palbl projects ids with e | ids3
    · rw [hsp] at h
      exact absurd h (by simp)
    · rw [hsp] at h
      rw [List.mem_cons] at hmem
      rcases hmem with rfl | hmem
      · cases projects with
        | nil => exact absurd rfl hne2
        | cons q qs =>
          obtain ⟨⟨project, plabel⟩, areas⟩ := q
          simp only [semProjects] at hsp
          split at hsp
          · exact Except.noConfusion hsp
          · split at hsp
            · exact Except.noConfusion hsp
            · split at hsp
              · exact Except.noConfusion hsp
              · rename_i h1 h2 h3
                dsimp only
                omega
      · exact ih ids3 ids2 h pr hmem hne2

/-- C8 (amended): every system accepted through the with-projects
production has all of its project-area ranges of the shape P00-P99 in
the blocks that contain AT LEAST ONE project line; blocks without
project lines escape the check (the range tests run inside the
per-project loop). -/
theorem c8_project_range_check (input : String) (sys : System)
    (h : parse_with_projects input = .ok sys) :
    ∀ pr ∈ pwBlocks input, pr.2 ≠ [] →
      pr.1.1.1 % 100 = 0 ∧ pr.1.1.2 = pr.1.1.1 + 99 := by
  intro pr hmem hne2
  unfold parse_with_projects at h
  unfold pwBlocks at hmem
  rcases hg : grammarWithProjects input with _ | ⟨rest, blocks⟩
  · simp only [hg] at h
    exact Except.noConfusion h
  · simp only [hg] at h hmem
    rcases hsem : semProjAreas blocks [] with e | ids
    · simp only [hsem] at h
      exact Except.noConfusion h
    · exact semProjAreas_ranges blocks [] ids hsem pr hmem hne2

/-- Witness for C8 (amended) at a checked block with one project line. -/
theorem c8_project_range_check_witness : 500 % 100 = 0 ∧ 599 = 500 + 99 :=
  c8_project_range_check "500-599_p\n501_x" ⟨[], []⟩ (by rfl)
    (((500, 599), "_p".data), [((501, "_x".data), [])])
    (by exact List.mem_singleton.mpr rfl) (by simp)

/-- C3 counterexample to the original claim: the path
`20-29_x/30-39\na/20.35_t` parses (the newline-labelled `30-39\na`
supplies the area, `20-29_x` the category with label `-29_x`), but
re-parsing the rendered relative path `20-29\na/20-29_x/20.35_t` lets
the rendered category component `20-29_x` re-match the area regex and
overwrite the area label: the round-tripped identifier carries
area_label `_x`, not `\na`. -/
theorem c3_counterexample :
    tryFromPath ["20-29_x", "30-39\na", "20.35_t"]
      = .ok ⟨none, none, none, 20, 35, "_t", "\na", "-29_x",
             .path ["20-29_x", "30-39\na", "20.35_t"]⟩
    ∧ get_relative_path ⟨none, none, none, 20, 35, "_t", "\na", "-29_x",
        .path ["20-29_x", "30-39\na", "20.35_t"]⟩
      = ["20-29\na", "20-29_x", "20.35_t"]
    ∧ tryFromPath ["20-29\na", "20-29_x", "20.35_t"]
      = .ok ⟨none, none, none, 20, 35, "_t", "_x", "-29_x",
             .path ["20-29\na", "20-29_x", "20.35_t"]⟩
    ∧ ("_x" : String) ≠ "\na" := by
  refine ⟨?_, ?_, ?_, by decide⟩
  · set_option maxRecDepth 10000 in rfl
  · set_option maxRecDepth 10000 in rfl
  · set_option maxRecDepth 10000 in rfl

/-- C3 (amended): an identifier parsed from a path whose category label
does not itself re-spell an area range (its two-digit category followed
by the category label does not match the area regex) re-parses from its
rendered relative path to an identifier equal under the order and with
identical label fields; without that proviso the rendered category
component can re-match the area regex and rebind the area label. -/
theorem c3_path_roundtrip (comps : List String) (x : JdNumber)
    (h : tryFromPath comps = .ok x)
    (hnc : areaCaptures ((pad2 x.category).data ++ x.category_label.data) = none) :
    ∃ x2, tryFromPath (get_relative_path x) = .ok x2 ∧
      jdCmp x2 x = .eq ∧ x2.label = x.label ∧ x2.area_label = x.area_label ∧
      x2.category_label = x.category_label ∧ x2.project_label = x.project_label := by
  obtain ⟨i1, i2, i3, i4, i5, i6, i7, i8, i9, i10, i11, i12⟩ :=
    scanInv_fold comps {} scanInv_init
  obtain ⟨e1, e2, e3, e4, e5, e6, e7, e8, e9, e10, e11, e12, e13, e14⟩ :=
    tryFromPath_ok_state rfl h
  have han : labelOk1 x.area_label := i6 _ e8
  have hcn : labelOk2 x.category_label := i9 _ e6
  have hjn : labelOk1 x.label := i12 _ e10
  cases hxp : x.project with
  | none =>
    have hsp : (comps.foldl scanComp {}).project = none := by rw [e1, hxp]
    have hspn : (comps.foldl scanComp {}).project_name = none := by
      rcases hv : (comps.foldl scanComp {}).project_name with _ | pl
      · rfl
      · have := i1.mpr (by rw [hv]; rfl)
        rw [hsp] at this
        simp at this
    have hxpl : x.project_label = none := by rw [← e3, hspn]
    refine ⟨_, roundtrip_noproj hxp hxpl e13 e14 han hcn hjn hnc, ?_, rfl, rfl, rfl, ?_⟩
    · show jdCmp _ x = .eq
      unfold jdCmp
      rw [hxp]
      dsimp only
      rw [if_neg (by omega), if_neg (by omega), if_neg (by omega), if_neg (by omega)]
    · exact hxpl.symm
  | some p =>
    have hsp : (comps.foldl scanComp {}).project = some p := by rw [e1, hxp]
    have hple : p ≤ 999 := i2 p hsp
    obtain ⟨pl, hspn⟩ : ∃ pl, (comps.foldl scanComp {}).project_name = some pl := by
      have := i1.mp (by rw [hsp]; rfl)
      rcases hv : (comps.foldl scanComp {}).project_name with _ | pl
      · rw [hv] at this
        simp at this
      · exact ⟨pl, rfl⟩
    have hxpl : x.project_label = some pl := by rw [← e3, hspn]
    have hplOk : labelOk2 pl := i3 _ hspn
    refine ⟨_, roundtrip_proj hxp hxpl hple hplOk e13 e14 han hcn hjn hnc, ?_, rfl, rfl,
      rfl, ?_⟩
    · show jdCmp _ x = .eq
      unfold jdCmp
      rw [hxp]
      dsimp only
      rw [if_neg (by omega), if_neg (by omega), if_neg (by omega), if_neg (by omega),
        if_neg (by omega), if_neg (by omega)]
    · exact hxpl.symm

set_option maxRecDepth 10000 in
theorem c3_path_roundtrip_witness :
    areaCaptures ((pad2 c3X.category).data ++ c3X.category_label.data) = none ∧
    ∃ x2, tryFromPath (get_relative_path c3X) = .ok x2 ∧
      jdCmp x2 c3X = .eq ∧ x2.label = c3X.label ∧ x2.area_label = c3X.area_label ∧
      x2.category_label = c3X.category_label ∧ x2.project_label = c3X.project_label :=
  ⟨by rfl, c3_path_roundtrip ["20-29_testing", "20_good_testing", "20.35_test"] c3X
    (by rfl) (by rfl)⟩
